import Mathlib

/-!
OneSweep (GPUSortingD3D12): host-side orchestration of the radix sort.

A shallow embedding of `GPUSortingD3D12/OneSweep.cpp` and of the helpers of
`GPUSortingD3D12/Utils.h` that it calls.

* A `winrt::com_ptr<ID3D12Resource>` is an `Option Resource`; `nullptr` is `none`.
  Calling a method through a null handle is the fault `Fault.nullHandle`.
* Unsigned machine integers are natural numbers, reduced modulo `2 ^ 32` or
  `2 ^ 64` where the source computes in `uint32_t` or `uint64_t`.
* The D3D12 device is explicit state: the resources it created and their byte
  sizes, the ones still alive, the 32-bit words held by every buffer and the
  timestamp query heap.
* Recording into `m_cmdList` appends a `Cmd`; `ExecuteCommandList` hands the
  recorded list to the queue, runs its commands on the device, in order, and
  resets the list. `m_cmdQueue` keeps the lists it was handed.
* Every device call is taken to report success, so `winrt::check_hresult`
  never throws; the development describes exactly those executions.
* The compute kernels and `OneSweep.h` are not part of the sources at hand.
  What a dispatch does to the buffers is modelled from the specification, and
  the class constants `k_partitionSize` and `k_maxReadback` are parameters.
-/

namespace GPUSorting

/-! ## Data model -/

/-- Ways in which an execution stops without producing its result. -/
inductive Fault where
  | nullHandle
  | readPastEnd (requestedBytes capacityBytes : Nat)
  | fuel
  deriving DecidableEq, Repr

inductive GPU_SORTING_MODE where
  | GPU_SORTING_KEYS_ONLY
  | GPU_SORTING_PAIRS
  deriving DecidableEq, Repr

inductive GPU_SORTING_ORDER where
  | GPU_SORTING_ASCENDING
  | GPU_SORTING_DESCENDING
  deriving DecidableEq, Repr

inductive GPU_SORTING_KEY_TYPE where
  | GPU_SORTING_KEY_UINT32
  | GPU_SORTING_KEY_INT32
  | GPU_SORTING_KEY_FLOAT32
  deriving DecidableEq, Repr

structure GPUSortingConfig where
  sortingMode : GPU_SORTING_MODE
  sortingOrder : GPU_SORTING_ORDER
  sortingKeyType : GPU_SORTING_KEY_TYPE
  deriving DecidableEq, Repr

/-- A committed buffer resource: `id` is its identity (and GPU virtual address),
`width` the byte size it was created with. -/
structure Resource where
  id : Nat
  width : Nat
  deriving DecidableEq, Repr

/-- One entry of the command list. Buffer arguments of a dispatch are GPU
virtual addresses; the argument of a barrier is the raw resource pointer,
which may be null. -/
inductive Cmd where
  | InitOneSweep (globalHist passHist index partitions : Nat)
  | InitSortInput (sort payload numKeys seed : Nat)
  | GlobalHist (sort globalHist numKeys partitions : Nat)
  | DigitBinningPass (sort alt globalHist passHist index numKeys partitions radixShift : Nat)
  | ClearErrorCount (errorCount : Nat)
  | Validate (sort payload errorCount numKeys : Nat)
  | UAVBarrier (resource : Option Nat)
  | CopyBufferRegion (dst dstOffset src srcOffset numBytes : Nat)
  | EndQuery (index : Nat)
  | ResolveQueryData (startIndex numQueries dst dstOffset : Nat)
  deriving DecidableEq, Repr

/-- What the process has written to standard output, one entry per `printf`. -/
inductive Line where
  | keysHeader
  | payloadsHeader
  | gap
  | entry (i v : Nat)
  | sortName
  | config (c : GPUSortingConfig)
  | failed (size errCount : Nat)
  | passed (size : Nat)
  | beginTiming
  | dot
  | newline
  deriving DecidableEq, Repr

/-- What the outside world supplies to the device: the pseudo-random key that
`InitSortInput` produces for a seed and an index, and the reading of the GPU
clock at the n-th timestamp. -/
structure World where
  gen : Nat → Nat → Nat
  clock : Nat → Nat

/-- State of the D3D12 device as far as the sort engine observes it. -/
structure Device where
  -- number of committed resources created so far; the next resource gets this id
  created : Nat
  -- ids of the resources that have not been released
  live : List Nat
  -- the byte size each resource was created with
  width : Nat → Nat
  -- the 32-bit words held by each buffer
  mem : Nat → List Nat
  -- the two 64-bit slots of the timestamp query heap
  queryHeap : Nat → Nat
  -- number of timestamps the device has written so far
  timestamps : Nat

/-- Double-precision operations used by the timing harness, kept abstract:
`seconds diff freq` is `diff / (double)freq`, `add` is `+`, `zero` is `0.0`,
`speed inputSize totalTime batchSize` is `inputSize / totalTime * batchSize`. -/
structure Real64 (τ : Type) where
  zero : τ
  add : τ → τ → τ
  seconds : Nat → Nat → τ
  speed : Nat → τ → Nat → τ

/-- The sort engine: the members of `class OneSweep` that `OneSweep.cpp` uses,
the device behind `m_device`, and the standard output of the process.
`m_cmdQueue` is the sequence of command lists submitted to the queue.
`k_partitionSize` and `k_maxReadback` are declared in `OneSweep.h`. -/
structure OneSweep where
  k_partitionSize : Nat
  k_maxReadback : Nat
  m_sortingConfig : GPUSortingConfig
  m_numKeys : Nat
  m_partitions : Nat
  m_sortBuffer : Option Resource
  m_sortPayloadBuffer : Option Resource
  m_altBuffer : Option Resource
  m_altPayloadBuffer : Option Resource
  m_passHistBuffer : Option Resource
  m_globalHistBuffer : Option Resource
  m_indexBuffer : Option Resource
  m_errorCountBuffer : Option Resource
  m_readBackBuffer : Option Resource
  m_cmdList : List Cmd
  m_cmdQueue : List (List Cmd)
  m_nextFenceValue : Nat
  m_timestampFrequency : Nat
  m_device : Device
  stdout : List Line

/-- Modelled from the spec: `k_radix` is declared in `OneSweep.h`; section 3 gives radix=256. -/
def k_radix : Nat := 256

/-- Modelled from the spec: `k_radixPasses` is declared in `OneSweep.h`; section 3 gives
passCount=4 for a 32-bit key. -/
def k_radixPasses : Nat := 4

/-! ## Kernel dispatch contract -/

/-- Modelled from the spec: the kernels are not under the sources. Section 4.4: the
key interpretation (unsigned integer, signed integer, floating point) is a
compile-time variant of the kernels. The position of the 32-bit word `w` in
the order of its key type: its value as an unsigned or a two's complement
integer, and for a binary32 pattern its place in the sign-and-magnitude order
(negative patterns descend from -0, non-negative ones ascend from +0). -/
def keyValue : GPU_SORTING_KEY_TYPE → Nat → Int
  | .GPU_SORTING_KEY_UINT32, w => (w : Int)
  | .GPU_SORTING_KEY_INT32, w => if w < 2 ^ 31 then (w : Int) else (w : Int) - 2 ^ 32
  | .GPU_SORTING_KEY_FLOAT32, w => if w < 2 ^ 31 then (w : Int) else 2 ^ 31 - 1 - (w : Int)

/-- Modelled from the spec: the kernels are not under the sources. Section 4.4: the
per-pass digit extraction depends on the key type. The unsigned word whose
bytes a pass bins: the key itself, or the key with its sign bit flipped
(integers and non-negative floats), or with all bits flipped (negative floats). -/
def radixKey : GPU_SORTING_KEY_TYPE → Nat → Nat
  | .GPU_SORTING_KEY_UINT32, w => w
  | .GPU_SORTING_KEY_INT32, w => (w + 2 ^ 31) % 2 ^ 32
  | .GPU_SORTING_KEY_FLOAT32, w => if w < 2 ^ 31 then w + 2 ^ 31 else 2 ^ 32 - 1 - w

/-- The 8-bit digit of `key` at `radixShift`: `(key >> radixShift) & 255`. -/
def digit (radixShift key : Nat) : Nat :=
  key / 2 ^ radixShift % k_radix

/-- The order in which the digit bins are laid out in the destination. -/
def binOrder : GPU_SORTING_ORDER → List Nat
  | .GPU_SORTING_ASCENDING => List.range k_radix
  | .GPU_SORTING_DESCENDING => (List.range k_radix).reverse

/-- Modelled from the spec: the kernel `DigitBinningPass` is not under the sources.
Section 4.4 (3a): it scatters the source into the destination using that pass's
digit. The scatter is stable: bin after bin, and inside a bin in source order. -/
def scatter (cfg : GPUSortingConfig) (radixShift : Nat) (keys : List Nat) : List Nat :=
  (binOrder cfg.sortingOrder).flatMap (fun d =>
    keys.filter (fun k => digit radixShift (radixKey cfg.sortingKeyType k) == d))

/-- Modelled from the spec: the kernel `GlobalHist` is not under the sources.
Section 3: per pass, the count of keys per digit value across the whole input. -/
def globalHistogram (cfg : GPUSortingConfig) (keys : List Nat) : List Nat :=
  (List.range k_radixPasses).flatMap (fun p =>
    (List.range k_radix).map (fun d =>
      (keys.filter (fun k => digit (8 * p) (radixKey cfg.sortingKeyType k) == d)).length))

/-- Whether two adjacent keys respect the configured order of the configured key type. -/
def inOrder (cfg : GPUSortingConfig) (a b : Nat) : Bool :=
  match cfg.sortingOrder with
  | .GPU_SORTING_ASCENDING =>
      decide (keyValue cfg.sortingKeyType a ≤ keyValue cfg.sortingKeyType b)
  | .GPU_SORTING_DESCENDING =>
      decide (keyValue cfg.sortingKeyType b ≤ keyValue cfg.sortingKeyType a)

/-- Modelled from the spec: the kernel `Validate` is not under the sources.
Section 4.5: it checks pairwise order and increments the error counter per
violation; this is the number of adjacent pairs that are out of order. -/
def countErrors (cfg : GPUSortingConfig) : List Nat → Nat
  | a :: b :: rest => (if inOrder cfg a b then 0 else 1) + countErrors cfg (b :: rest)
  | _ => 0

/-- Modelled from the spec: the kernel `InitSortInput` is not under the sources.
Section 6: deterministic pseudo-random input from the seed; here `numKeys`
32-bit keys, the i-th one drawn from the generator of the world. -/
def testInput (W : World) (seed numKeys : Nat) : List Nat :=
  (List.range numKeys).map (fun i => W.gen seed i % 2 ^ 32)

/-- Replace the words of buffer `id`. -/
def Device.write (d : Device) (id : Nat) (words : List Nat) : Device :=
  { d with mem := fun j => if j = id then words else d.mem j }

/-- The words `old` with `new` written over them in place from word `off`; a word
that was never written reads as 0. -/
def overwrite (old : List Nat) (off : Nat) (new : List Nat) : List Nat :=
  old.take off ++ List.replicate (off - old.length) 0 ++ new ++ old.drop (off + new.length)

/-- The `n` words of `src` from word `off`. -/
def readWords (src : List Nat) (off n : Nat) : List Nat :=
  (List.range n).map (fun i => src.getD (off + i) 0)

/-- Copy `n` words of `src` from word `srcOff` over `dst` at word `dstOff`, in place. -/
def copyWords (dst : List Nat) (dstOff : Nat) (src : List Nat) (srcOff n : Nat) : List Nat :=
  overwrite dst dstOff (readWords src srcOff n)

/-- A kernel stores `words` at the start of buffer `id`: in place, and only as far as
the buffer reaches; it holds a quarter of its byte size in 32-bit words. -/
def Device.store (d : Device) (id : Nat) (words : List Nat) : Device :=
  d.write id ((overwrite (d.mem id) 0 words).take (d.width id / 4))

/-- The two 32-bit words of each of `numQueries` 64-bit timestamps, low word first. -/
def queryWords (d : Device) (startIndex numQueries : Nat) : List Nat :=
  (List.range numQueries).flatMap (fun q =>
    [d.queryHeap (startIndex + q) % 2 ^ 32, d.queryHeap (startIndex + q) / 2 ^ 32])

/-- Modelled from the spec: the kernels are not under the sources; section 4.3 gives
each a dispatch contract over the buffers it reads and writes. Effect of one
recorded command on the device, for kernels compiled for configuration `cfg`
and for partitions of `partitionSize` keys.
`InitOneSweep` zeroes the two histograms and the index counters (4.4, stage 1),
`InitSortInput` fills the key buffer with `numKeys` generated 32-bit keys,
`GlobalHist` writes the digit counts (stage 2), `DigitBinningPass` scatters
the keys of its source into its destination (stage 3a), `ClearErrorCount`
zeroes the counter and `Validate` adds the violations it finds (4.5).
A partition is a slice of `partitionSize` keys processed by one thread group
(glossary), so `GlobalHist` and `DigitBinningPass`, dispatched over
`partitions` thread groups, reach the first `partitions * partitionSize` of
the `numKeys` keys. Every store of a kernel ends where its buffer ends.
Digits and order follow the key type of `cfg`. The payloads of pairs mode and
the use the passes make of the histograms are left out.
Barriers order the commands and change no data; a copy, a timestamp query
and its resolution are the Direct3D 12 commands of those names, which
overwrite their destination in place. -/
def exec (W : World) (cfg : GPUSortingConfig) (partitionSize : Nat) (d : Device) : Cmd → Device
  | .InitOneSweep globalHist passHist index partitions =>
      ((d.store globalHist (List.replicate (k_radix * k_radixPasses) 0)).store passHist
        (List.replicate (k_radix * k_radixPasses * partitions) 0)).store index
          (List.replicate k_radixPasses 0)
  | .InitSortInput sort _ numKeys seed =>
      d.store sort (testInput W seed numKeys)
  | .GlobalHist sort globalHist numKeys partitions =>
      d.store globalHist
        (globalHistogram cfg ((d.mem sort).take (min numKeys (partitions * partitionSize))))
  | .DigitBinningPass sort alt _ _ _ numKeys partitions radixShift =>
      d.store alt
        (scatter cfg radixShift ((d.mem sort).take (min numKeys (partitions * partitionSize))))
  | .ClearErrorCount errorCount => d.store errorCount [0]
  | .Validate sort _ errorCount numKeys =>
      d.store errorCount
        [((d.mem errorCount).getD 0 0 + countErrors cfg ((d.mem sort).take numKeys)) % 2 ^ 32]
  | .UAVBarrier _ => d
  | .CopyBufferRegion dst dstOffset src srcOffset numBytes =>
      d.write dst (copyWords (d.mem dst) (dstOffset / 4) (d.mem src) (srcOffset / 4) (numBytes / 4))
  | .EndQuery index =>
      { d with
        queryHeap := fun j => if j = index then W.clock d.timestamps % 2 ^ 64 else d.queryHeap j
        timestamps := d.timestamps + 1 }
  | .ResolveQueryData startIndex numQueries dst dstOffset =>
      d.write dst (overwrite (d.mem dst) (dstOffset / 4) (queryWords d startIndex numQueries))

/-! ## Utils.h -/

/-- `CreateBuffer`: the byte size goes through a `uint32_t` parameter. -/
def CreateBuffer (device : Device) (size : Nat) : Resource × Device :=
  let buffer : Resource := { id := device.created, width := size % 2 ^ 32 }
  (buffer,
    { device with
      created := device.created + 1
      live := buffer.id :: device.live
      width := fun j => if j = buffer.id then buffer.width else device.width j })

/-- `UAVBarrierSingle`: records a UAV barrier on `resource.get()`. -/
def UAVBarrierSingle (commandList : List Cmd) (resource : Option Resource) : List Cmd :=
  commandList ++ [Cmd.UAVBarrier (resource.map Resource.id)]

/-- `ReadBackBuffer`: maps the buffer and copies `readBackSize` 32-bit words out
of it. The source does not compare `readBackSize` with the size of the
buffer; a copy that runs past its end is the fault `readPastEnd`. -/
def ReadBackBuffer (device : Device) (readBackBuffer : Option Resource) (readBackSize : Nat) :
    Except Fault (List Nat) :=
  match readBackBuffer with
  | none => .error .nullHandle
  | some r =>
    if readBackSize * 4 ≤ r.width then
      .ok ((List.range readBackSize).map (fun i => (device.mem r.id).getD i 0))
    else .error (.readPastEnd (readBackSize * 4) r.width)

/-- `ReadBackTiming`: maps the buffer and copies two 64-bit values out of it. -/
def ReadBackTiming (device : Device) (readBackBuffer : Option Resource) :
    Except Fault (List Nat) :=
  match readBackBuffer with
  | none => .error .nullHandle
  | some r =>
    if 2 * 8 ≤ r.width then
      .ok ((List.range 2).map (fun i =>
        (device.mem r.id).getD (2 * i) 0 + 2 ^ 32 * (device.mem r.id).getD (2 * i + 1) 0))
    else .error (.readPastEnd (2 * 8) r.width)

/-- Going through a handle: `p->...` or passing `p.get()` to a copy. -/
def deref (p : Option Resource) : Except Fault Resource :=
  match p with
  | none => .error .nullHandle
  | some r => .ok r

/-! ## OneSweep.cpp -/

/-- `OneSweep::ExecuteCommandList`: closes and submits the command list, waits
for the fence, then resets the list for reuse. -/
def ExecuteCommandList (W : World) (s : OneSweep) : OneSweep :=
  { s with
    m_cmdQueue := s.m_cmdQueue ++ [s.m_cmdList]
    m_device := s.m_cmdList.foldl (exec W s.m_sortingConfig s.k_partitionSize) s.m_device
    m_nextFenceValue := (s.m_nextFenceValue + 1) % 2 ^ 64
    m_cmdList := [] }

/-- Dropping the last reference to a resource destroys it. -/
def release (device : Device) : Option Resource → Device
  | none => device
  | some r => { device with live := device.live.filter (fun i => i != r.id) }

/-- `OneSweep::DisposeBuffers`. -/
def DisposeBuffers (s : OneSweep) : OneSweep :=
  let s := { s with m_device := release s.m_device s.m_sortBuffer, m_sortBuffer := none }
  let s := { s with m_device := release s.m_device s.m_sortPayloadBuffer,
                    m_sortPayloadBuffer := none }
  let s := { s with m_device := release s.m_device s.m_altBuffer, m_altBuffer := none }
  let s := { s with m_device := release s.m_device s.m_altPayloadBuffer,
                    m_altPayloadBuffer := none }
  { s with m_device := release s.m_device s.m_passHistBuffer, m_passHistBuffer := none }

/-- `OneSweep::InitStaticBuffers`. -/
def InitStaticBuffers (s : OneSweep) : OneSweep :=
  let b := CreateBuffer s.m_device (k_radix * k_radixPasses * 4)
  let s := { s with m_globalHistBuffer := some b.1, m_device := b.2 }
  let b := CreateBuffer s.m_device (k_radixPasses * 4)
  let s := { s with m_indexBuffer := some b.1, m_device := b.2 }
  let b := CreateBuffer s.m_device (1 * 4)
  let s := { s with m_errorCountBuffer := some b.1, m_device := b.2 }
  let b := CreateBuffer s.m_device (s.k_maxReadback * 4)
  { s with m_readBackBuffer := some b.1, m_device := b.2 }

/-- `OneSweep::InitBuffers`. The byte sizes are formed with `sizeof(uint32_t)`
and then narrowed by the `uint32_t` parameter of `CreateBuffer`. -/
def InitBuffers (s : OneSweep) (numKeys threadBlocks : Nat) : OneSweep :=
  let b := CreateBuffer s.m_device (numKeys * 4)
  let s := { s with m_sortBuffer := some b.1, m_device := b.2 }
  let b := CreateBuffer s.m_device (numKeys * 4)
  let s := { s with m_altBuffer := some b.1, m_device := b.2 }
  let b := CreateBuffer s.m_device (k_radix * k_radixPasses * threadBlocks * 4)
  let s := { s with m_passHistBuffer := some b.1, m_device := b.2 }
  if s.m_sortingConfig.sortingMode = .GPU_SORTING_PAIRS then
    let b := CreateBuffer s.m_device (numKeys * 4)
    let s := { s with m_sortPayloadBuffer := some b.1, m_device := b.2 }
    let b := CreateBuffer s.m_device (numKeys * 4)
    { s with m_altPayloadBuffer := some b.1, m_device := b.2 }
  else
    let b := CreateBuffer s.m_device (1 * 4)
    let s := { s with m_sortPayloadBuffer := some b.1, m_device := b.2 }
    let b := CreateBuffer s.m_device (1 * 4)
    { s with m_altPayloadBuffer := some b.1, m_device := b.2 }

/-- `OneSweep::UpdateSize`. The partition count is computed in `uint32_t`. -/
def UpdateSize (s : OneSweep) (size : Nat) : OneSweep :=
  if s.m_numKeys ≠ size then
    let s := { s with m_numKeys := size }
    let s := { s with
      m_partitions := (s.m_numKeys + s.k_partitionSize + (2 ^ 32 - 1)) % 2 ^ 32 / s.k_partitionSize }
    InitBuffers (DisposeBuffers s) s.m_numKeys s.m_partitions
  else s

/-- `OneSweep::Initialize`, as far as buffers, queue, command list and fence go. -/
def Initialize (s : OneSweep) (timestampFrequency : Nat) : OneSweep :=
  InitStaticBuffers
    { s with
      m_cmdQueue := [], m_cmdList := [], m_nextFenceValue := 1
      m_timestampFrequency := timestampFrequency }

/-- The keys-only constructor `OneSweep::OneSweep` on a device. The initial
values of `m_numKeys` and `m_partitions` come from `OneSweep.h`; every handle
starts out null. -/
def OneSweep.new (device : Device) (sortingOrder : GPU_SORTING_ORDER)
    (keyType : GPU_SORTING_KEY_TYPE) (partitionSize maxReadback numKeys partitions
    timestampFrequency : Nat) : OneSweep :=
  Initialize
    { k_partitionSize := partitionSize
      k_maxReadback := maxReadback
      m_sortingConfig :=
        { sortingMode := .GPU_SORTING_KEYS_ONLY, sortingOrder := sortingOrder,
          sortingKeyType := keyType }
      m_numKeys := numKeys
      m_partitions := partitions
      m_sortBuffer := none
      m_sortPayloadBuffer := none
      m_altBuffer := none
      m_altPayloadBuffer := none
      m_passHistBuffer := none
      m_globalHistBuffer := none
      m_indexBuffer := none
      m_errorCountBuffer := none
      m_readBackBuffer := none
      m_cmdList := []
      m_cmdQueue := []
      m_nextFenceValue := 0
      m_timestampFrequency := 0
      m_device := device
      stdout := [] }
    timestampFrequency

/-- `OneSweep::CreateTestInput`. -/
def CreateTestInput (W : World) (s : OneSweep) (seed : Nat) : Except Fault OneSweep := do
  let sort ← deref s.m_sortBuffer
  let payload ← deref s.m_sortPayloadBuffer
  let s := { s with
    m_cmdList := s.m_cmdList ++ [Cmd.InitSortInput sort.id payload.id s.m_numKeys seed] }
  let s := { s with m_cmdList := UAVBarrierSingle s.m_cmdList s.m_sortBuffer }
  pure (ExecuteCommandList W s)

/-- One iteration of the loop of `OneSweep::PrepareSortCmdList`: the dispatch,
the four barriers and the two swaps. -/
def digitBinningStep (s : OneSweep) (radixShift : Nat) : Except Fault OneSweep := do
  let sort ← deref s.m_sortBuffer
  let alt ← deref s.m_altBuffer
  let globalHist ← deref s.m_globalHistBuffer
  let passHist ← deref s.m_passHistBuffer
  let index ← deref s.m_indexBuffer
  let s := { s with
    m_cmdList := s.m_cmdList ++
      [Cmd.DigitBinningPass sort.id alt.id globalHist.id passHist.id index.id
        s.m_numKeys s.m_partitions radixShift] }
  let s := { s with m_cmdList := UAVBarrierSingle s.m_cmdList s.m_sortBuffer }
  let s := { s with m_cmdList := UAVBarrierSingle s.m_cmdList s.m_sortPayloadBuffer }
  let s := { s with m_cmdList := UAVBarrierSingle s.m_cmdList s.m_altBuffer }
  let s := { s with m_cmdList := UAVBarrierSingle s.m_cmdList s.m_altPayloadBuffer }
  let s := { s with m_sortBuffer := s.m_altBuffer, m_altBuffer := s.m_sortBuffer }
  pure { s with m_sortPayloadBuffer := s.m_altPayloadBuffer,
                m_altPayloadBuffer := s.m_sortPayloadBuffer }

/-- The loop `for (radixShift = 0; radixShift < 32; radixShift += 8)` of
`OneSweep::PrepareSortCmdList`. -/
def digitBinningLoop (s : OneSweep) (radixShift : Nat) : Except Fault OneSweep :=
  if radixShift < 32 then do
    let s ← digitBinningStep s radixShift
    digitBinningLoop s (radixShift + 8)
  else pure s
termination_by 32 - radixShift

/-- `OneSweep::PrepareSortCmdList`. -/
def PrepareSortCmdList (s : OneSweep) : Except Fault OneSweep := do
  let globalHist ← deref s.m_globalHistBuffer
  let passHist ← deref s.m_passHistBuffer
  let index ← deref s.m_indexBuffer
  let s := { s with
    m_cmdList := s.m_cmdList ++
      [Cmd.InitOneSweep globalHist.id passHist.id index.id s.m_partitions] }
  let s := { s with m_cmdList := UAVBarrierSingle s.m_cmdList s.m_globalHistBuffer }
  let s := { s with m_cmdList := UAVBarrierSingle s.m_cmdList s.m_passHistBuffer }
  let s := { s with m_cmdList := UAVBarrierSingle s.m_cmdList s.m_indexBuffer }
  let sort ← deref s.m_sortBuffer
  let globalHist ← deref s.m_globalHistBuffer
  let s := { s with
    m_cmdList := s.m_cmdList ++
      [Cmd.GlobalHist sort.id globalHist.id s.m_numKeys s.m_partitions] }
  let s := { s with m_cmdList := UAVBarrierSingle s.m_cmdList s.m_sortBuffer }
  let s := { s with m_cmdList := UAVBarrierSingle s.m_cmdList s.m_globalHistBuffer }
  digitBinningLoop s 0

/-- `OneSweep::ValidateOutput`. -/
def ValidateOutput (W : World) (s : OneSweep) (shouldPrint : Bool) :
    Except Fault (Bool × OneSweep) := do
  let errorCount ← deref s.m_errorCountBuffer
  let s := { s with m_cmdList := s.m_cmdList ++ [Cmd.ClearErrorCount errorCount.id] }
  let s := { s with m_cmdList := UAVBarrierSingle s.m_cmdList s.m_errorCountBuffer }
  let sort ← deref s.m_sortBuffer
  let payload ← deref s.m_sortPayloadBuffer
  let errorCount ← deref s.m_errorCountBuffer
  let s := { s with
    m_cmdList := s.m_cmdList ++ [Cmd.Validate sort.id payload.id errorCount.id s.m_numKeys] }
  let s := { s with m_cmdList := UAVBarrierSingle s.m_cmdList s.m_errorCountBuffer }
  let s := ExecuteCommandList W s
  let readBack ← deref s.m_readBackBuffer
  let errorCount ← deref s.m_errorCountBuffer
  let s := { s with
    m_cmdList := s.m_cmdList ++ [Cmd.CopyBufferRegion readBack.id 0 errorCount.id 0 4] }
  let s := ExecuteCommandList W s
  let vecOut ← ReadBackBuffer s.m_device s.m_readBackBuffer 1
  let errCount := vecOut.getD 0 0
  let s :=
    if shouldPrint then
      { s with stdout := s.stdout ++ [Line.sortName, Line.config s.m_sortingConfig,
          if errCount ≠ 0 then Line.failed s.m_numKeys errCount else Line.passed s.m_numKeys] }
    else s
  pure (decide (errCount = 0), s)

/-- The lines printed for a vector that was read back. -/
def printEntries (vecOut : List Nat) : List Line :=
  (List.range vecOut.length).map (fun i => Line.entry i (vecOut.getD i 0))

/-- The body of `if (shouldReadBack)` in `OneSweep::TestSort`: copy the first
`readBackSize` keys to the staging buffer, read `m_numKeys` words back from
it and print them; in pairs mode, the same for the payloads. -/
def readBackAndPrint (W : World) (s : OneSweep) : Except Fault OneSweep := do
  let readBackSize := if s.m_numKeys < s.k_maxReadback then s.m_numKeys else s.k_maxReadback
  let readBack ← deref s.m_readBackBuffer
  let sort ← deref s.m_sortBuffer
  let s := { s with
    m_cmdList := s.m_cmdList ++ [Cmd.CopyBufferRegion readBack.id 0 sort.id 0 (readBackSize * 4)] }
  let s := ExecuteCommandList W s
  let vecOut ← ReadBackBuffer s.m_device s.m_readBackBuffer s.m_numKeys
  let s := { s with stdout := s.stdout ++ [Line.keysHeader] ++ printEntries vecOut }
  if s.m_sortingConfig.sortingMode = .GPU_SORTING_PAIRS then
    let readBack ← deref s.m_readBackBuffer
    let payload ← deref s.m_sortPayloadBuffer
    let s := { s with
      m_cmdList := s.m_cmdList ++
        [Cmd.CopyBufferRegion readBack.id 0 payload.id 0 (readBackSize * 4)] }
    let s := ExecuteCommandList W s
    let vecOut ← ReadBackBuffer s.m_device s.m_readBackBuffer s.m_numKeys
    pure { s with
      stdout := s.stdout ++ [Line.gap, Line.payloadsHeader] ++ printEntries vecOut }
  else pure s

/-- `OneSweep::TestSort`. -/
def TestSort (W : World) (s : OneSweep) (testSize seed : Nat) (shouldReadBack shouldValidate : Bool) :
    Except Fault OneSweep := do
  let s := UpdateSize s testSize
  let s ← CreateTestInput W s seed
  let s ← PrepareSortCmdList s
  let s := ExecuteCommandList W s
  let s ← if shouldValidate then (fun r => r.2) <$> ValidateOutput W s true else pure s
  if shouldReadBack then readBackAndPrint W s else pure s

/-- `OneSweep::TimeSort`. -/
def TimeSort {τ : Type} (R : Real64 τ) (W : World) (s : OneSweep) (seed : Nat) :
    Except Fault (τ × OneSweep) := do
  let s ← CreateTestInput W s seed
  let s := { s with m_cmdList := s.m_cmdList ++ [Cmd.EndQuery 0] }
  let s ← PrepareSortCmdList s
  let s := { s with m_cmdList := s.m_cmdList ++ [Cmd.EndQuery 1] }
  let s := ExecuteCommandList W s
  let readBack ← deref s.m_readBackBuffer
  let s := { s with m_cmdList := s.m_cmdList ++ [Cmd.ResolveQueryData 0 2 readBack.id 0] }
  let s := ExecuteCommandList W s
  let vecOut ← ReadBackTiming s.m_device s.m_readBackBuffer
  let diff := (vecOut.getD 1 0 + 2 ^ 64 - vecOut.getD 0 0) % 2 ^ 64
  pure (R.seconds diff s.m_timestampFrequency, s)

/-- The loop `for (uint32_t i = 0; i <= batchSize; ++i)` of `OneSweep::BatchTiming`,
started at `i` with `totalTime` accumulated so far. `i` is a `uint32_t`; the
loop need not end, so the model gives up with `Fault.fuel` once `fuel`
iterations have been spent. -/
def timingLoop {τ : Type} (R : Real64 τ) (W : World) (batchSize : Nat) :
    Nat → Nat → τ → OneSweep → Except Fault (τ × OneSweep)
  | 0, _, _, _ => .error .fuel
  | fuel + 1, i, totalTime, s =>
    if i ≤ batchSize then do
      let (t, s) ← TimeSort R W s ((i + 10) % 2 ^ 32)
      let totalTime := if i ≠ 0 then R.add totalTime t else totalTime
      let s := if i % 8 = 0 then { s with stdout := s.stdout ++ [Line.dot] } else s
      timingLoop R W batchSize fuel ((i + 1) % 2 ^ 32) totalTime s
    else .ok (totalTime, s)

/-- `OneSweep::BatchTiming`. Returns the accumulated `totalTime` of the loop and
the estimated speed that is printed. -/
def BatchTiming {τ : Type} (R : Real64 τ) (W : World) (fuel : Nat) (s : OneSweep)
    (inputSize batchSize : Nat) : Except Fault ((τ × τ) × OneSweep) := do
  let s := UpdateSize s inputSize
  let s := { s with stdout := s.stdout ++ [Line.beginTiming] }
  let (totalTime, s) ← timingLoop R W batchSize fuel 0 R.zero s
  let s := { s with stdout := s.stdout ++ [Line.newline] }
  pure ((totalTime, R.speed inputSize totalTime batchSize), s)

/-! ## Specification-side notions -/

/-- The least `q` with `n ≤ q * k`: the ceiling of `n / k`, over the unbounded naturals. -/
def ceilDiv (n k : Nat) : Nat := (n + k - 1) / k

/-- A key sequence is monotonic per the configured order of the configured key type. -/
def Monotonic (cfg : GPUSortingConfig) (keys : List Nat) : Prop :=
  keys.Pairwise (fun a b => inOrder cfg a b = true)

/-- Unsigned words in the order in which the bins of a pass are laid out. -/
def precedes : GPU_SORTING_ORDER → Nat → Nat → Prop
  | .GPU_SORTING_ASCENDING, x, y => x ≤ y
  | .GPU_SORTING_DESCENDING, x, y => y ≤ x

/-- The four digit passes of the pipeline, least significant byte first. -/
def radixSort (cfg : GPUSortingConfig) (keys : List Nat) : List Nat :=
  scatter cfg 24 (scatter cfg 16 (scatter cfg 8 (scatter cfg 0 keys)))

/-- The handles whose buffers depend on the element count. -/
def OneSweep.sizeBuffers (s : OneSweep) : List (Option Resource) :=
  [s.m_sortBuffer, s.m_sortPayloadBuffer, s.m_altBuffer, s.m_altPayloadBuffer, s.m_passHistBuffer]

/-- The handles whose buffers are created once, by `InitStaticBuffers`. -/
def OneSweep.fixedBuffers (s : OneSweep) : List (Option Resource) :=
  [s.m_globalHistBuffer, s.m_indexBuffer, s.m_errorCountBuffer, s.m_readBackBuffer]

/-- The ids of the resources that the engine holds a handle to. -/
def OneSweep.ids (s : OneSweep) : List Nat :=
  (s.sizeBuffers ++ s.fixedBuffers).reduceOption.map Resource.id

/-- The size-dependent buffers are allocated: none of their handles is null. -/
def OneSweep.Allocated (s : OneSweep) : Prop :=
  ∀ h ∈ s.sizeBuffers, h ≠ none

/-- The handles of the engine refer to pairwise different resources, each of
them created by the device. -/
def OneSweep.Owned (s : OneSweep) : Prop :=
  s.ids.Nodup ∧ ∀ i ∈ s.ids, i < s.m_device.created

/-- The class invariant that the constructor establishes: the fixed-size
buffers exist, the staging buffer has room for `k_maxReadback` words and for
the two timestamps, and the handles are owned. -/
def OneSweep.Inv (s : OneSweep) : Prop :=
  (∀ h ∈ s.fixedBuffers, h ≠ none) ∧ s.Owned ∧
    s.m_readBackBuffer.map Resource.width = some (s.k_maxReadback * 4) ∧
    4 ≤ s.k_maxReadback ∧ s.k_maxReadback < 2 ^ 30

instance (s : OneSweep) : Decidable s.Allocated := by
  unfold OneSweep.Allocated; exact inferInstance

instance (s : OneSweep) : Decidable s.Owned := by
  unfold OneSweep.Owned; exact inferInstance

instance (s : OneSweep) : Decidable s.Inv := by
  unfold OneSweep.Inv; exact inferInstance

/-- Between `s` and `t` no buffer was created, released or bound to another
handle, and the configuration is the same. -/
structure SameBuffers (s t : OneSweep) : Prop where
  k_partitionSize : t.k_partitionSize = s.k_partitionSize
  k_maxReadback : t.k_maxReadback = s.k_maxReadback
  m_sortingConfig : t.m_sortingConfig = s.m_sortingConfig
  m_numKeys : t.m_numKeys = s.m_numKeys
  m_partitions : t.m_partitions = s.m_partitions
  m_sortBuffer : t.m_sortBuffer = s.m_sortBuffer
  m_sortPayloadBuffer : t.m_sortPayloadBuffer = s.m_sortPayloadBuffer
  m_altBuffer : t.m_altBuffer = s.m_altBuffer
  m_altPayloadBuffer : t.m_altPayloadBuffer = s.m_altPayloadBuffer
  m_passHistBuffer : t.m_passHistBuffer = s.m_passHistBuffer
  m_globalHistBuffer : t.m_globalHistBuffer = s.m_globalHistBuffer
  m_indexBuffer : t.m_indexBuffer = s.m_indexBuffer
  m_errorCountBuffer : t.m_errorCountBuffer = s.m_errorCountBuffer
  m_readBackBuffer : t.m_readBackBuffer = s.m_readBackBuffer
  m_timestampFrequency : t.m_timestampFrequency = s.m_timestampFrequency
  created : t.m_device.created = s.m_device.created
  live : t.m_device.live = s.m_device.live

/-- The state after the submission of `cmds`: device `d`, fence value `fence`,
empty list. -/
def OneSweep.ran (s : OneSweep) (cmds : List Cmd) (d : Device) (fence : Nat) : OneSweep :=
  { s with
    m_cmdQueue := s.m_cmdQueue ++ [cmds], m_device := d, m_nextFenceValue := fence
    m_cmdList := [] }

/-- The commands that `PrepareSortCmdList` records for key buffers `a` (sort) and
`b` (alt), payload handles `pa` and `pb`, pass histogram `p`, global histogram
`g` and index buffer `i`. -/
def sortCmds (a b : Nat) (pa pb : Option Nat) (p g i numKeys partitions : Nat) : List Cmd :=
  [Cmd.InitOneSweep g p i partitions,
   Cmd.UAVBarrier (some g), Cmd.UAVBarrier (some p), Cmd.UAVBarrier (some i),
   Cmd.GlobalHist a g numKeys partitions,
   Cmd.UAVBarrier (some a), Cmd.UAVBarrier (some g),
   Cmd.DigitBinningPass a b g p i numKeys partitions 0,
   Cmd.UAVBarrier (some a), Cmd.UAVBarrier pa, Cmd.UAVBarrier (some b), Cmd.UAVBarrier pb,
   Cmd.DigitBinningPass b a g p i numKeys partitions 8,
   Cmd.UAVBarrier (some b), Cmd.UAVBarrier pb, Cmd.UAVBarrier (some a), Cmd.UAVBarrier pa,
   Cmd.DigitBinningPass a b g p i numKeys partitions 16,
   Cmd.UAVBarrier (some a), Cmd.UAVBarrier pa, Cmd.UAVBarrier (some b), Cmd.UAVBarrier pb,
   Cmd.DigitBinningPass b a g p i numKeys partitions 24,
   Cmd.UAVBarrier (some b), Cmd.UAVBarrier pb, Cmd.UAVBarrier (some a), Cmd.UAVBarrier pa]

/-- The destination buffers of the digit-binning passes among `cmds`, in order. -/
def passDestinations (cmds : List Cmd) : List Nat :=
  cmds.filterMap (fun c =>
    match c with
    | .DigitBinningPass _ alt _ _ _ _ _ _ => some alt
    | _ => none)

/-- The ticks between the two timestamps of a timed sort whose first timestamp
is the `ts`-th one of the device, as `TimeSort` computes them in `uint64_t`. -/
def elapsed (W : World) (ts : Nat) : Nat :=
  (W.clock (ts + 1) % 2 ^ 64 + 2 ^ 64 - W.clock ts % 2 ^ 64) % 2 ^ 64

/-! ## Sample instances -/

/-- A device that has created nothing yet. -/
def device0 : Device :=
  { created := 0, live := [], width := fun _ => 0, mem := fun _ => [],
    queryHeap := fun _ => 0, timestamps := 0 }

/-- A world whose generator counts down from the seed and whose clock ticks
five times per timestamp. -/
def world0 : World :=
  { gen := fun seed i => 1000 * seed - 77 * i, clock := fun n => 5 * n }

/-- A freshly constructed ascending `uint32` engine with sample constants
(partition size 7680, 8192 words of staging, `m_numKeys` starting at 0). -/
def engine0 : OneSweep :=
  OneSweep.new device0 .GPU_SORTING_ASCENDING .GPU_SORTING_KEY_UINT32 7680 8192 0 0 1000

/-- The sample engine after `UpdateSize(5)`: all nine buffers exist. -/
def engine1 : OneSweep := UpdateSize engine0 5

/-- The sample engine with five keys in its sort buffer, two adjacent pairs of
them out of ascending order. -/
def engine2 : OneSweep :=
  { engine1 with m_device := engine1.m_device.write 4 [5, 3, 9, 1, 7] }

/-- Timing arithmetic that keeps the samples apart: a total is the list of the
tick counts added to it. -/
def sampleLog : Real64 (List Nat) :=
  { zero := [], add := fun a b => a ++ b, seconds := fun diff _ => [diff],
    speed := fun _ t _ => t }


/-! ## Arithmetic -/

theorem ceilDiv_le_iff (n k q : Nat) (hk : 0 < k) : ceilDiv n k ≤ q ↔ n ≤ q * k := by
  unfold ceilDiv
  constructor
  · intro h
    have h1 : (n + k - 1) < (q + 1) * k := (Nat.div_lt_iff_lt_mul hk).mp (Nat.lt_succ_of_le h)
    rw [Nat.add_mul, Nat.one_mul] at h1
    omega
  · intro h
    apply Nat.le_of_lt_succ
    apply (Nat.div_lt_iff_lt_mul hk).mpr
    rw [Nat.succ_mul]
    omega

/-! ## The device under release, creation and execution -/

@[simp] theorem release_created (d : Device) (h : Option Resource) :
    (release d h).created = d.created := by cases h <;> rfl

@[simp] theorem release_width (d : Device) (h : Option Resource) :
    (release d h).width = d.width := by cases h <;> rfl

@[simp] theorem release_mem (d : Device) (h : Option Resource) :
    (release d h).mem = d.mem := by cases h <;> rfl

@[simp] theorem release_queryHeap (d : Device) (h : Option Resource) :
    (release d h).queryHeap = d.queryHeap := by cases h <;> rfl

@[simp] theorem release_timestamps (d : Device) (h : Option Resource) :
    (release d h).timestamps = d.timestamps := by cases h <;> rfl

/-- `DisposeBuffers` in closed form. -/
theorem DisposeBuffers_eq (s : OneSweep) :
    DisposeBuffers s =
      { s with
        m_sortBuffer := none, m_sortPayloadBuffer := none, m_altBuffer := none,
        m_altPayloadBuffer := none, m_passHistBuffer := none,
        m_device := release (release (release (release (release s.m_device s.m_sortBuffer)
          s.m_sortPayloadBuffer) s.m_altBuffer) s.m_altPayloadBuffer) s.m_passHistBuffer } := rfl

/-- `InitBuffers` in closed form; a payload buffer is one word unless the engine sorts pairs. -/
theorem InitBuffers_eq (s : OneSweep) (numKeys threadBlocks : Nat) :
    InitBuffers s numKeys threadBlocks =
      { s with
        m_sortBuffer := some ⟨s.m_device.created, numKeys * 4 % 2 ^ 32⟩
        m_altBuffer := some ⟨s.m_device.created + 1, numKeys * 4 % 2 ^ 32⟩
        m_passHistBuffer :=
          some ⟨s.m_device.created + 2, k_radix * k_radixPasses * threadBlocks * 4 % 2 ^ 32⟩
        m_sortPayloadBuffer := some ⟨s.m_device.created + 3,
          if s.m_sortingConfig.sortingMode = .GPU_SORTING_PAIRS then numKeys * 4 % 2 ^ 32 else 4⟩
        m_altPayloadBuffer := some ⟨s.m_device.created + 4,
          if s.m_sortingConfig.sortingMode = .GPU_SORTING_PAIRS then numKeys * 4 % 2 ^ 32 else 4⟩
        m_device :=
          { s.m_device with
            created := s.m_device.created + 5
            live := (s.m_device.created + 4) :: (s.m_device.created + 3) ::
              (s.m_device.created + 2) :: (s.m_device.created + 1) :: s.m_device.created ::
              s.m_device.live
            width := fun j =>
              if j = s.m_device.created + 4 then
                (if s.m_sortingConfig.sortingMode = .GPU_SORTING_PAIRS then numKeys * 4 % 2 ^ 32
                  else 4)
              else if j = s.m_device.created + 3 then
                (if s.m_sortingConfig.sortingMode = .GPU_SORTING_PAIRS then numKeys * 4 % 2 ^ 32
                  else 4)
              else if j = s.m_device.created + 2 then
                k_radix * k_radixPasses * threadBlocks * 4 % 2 ^ 32
              else if j = s.m_device.created + 1 then numKeys * 4 % 2 ^ 32
              else if j = s.m_device.created then numKeys * 4 % 2 ^ 32
              else s.m_device.width j } } := by
  unfold InitBuffers
  dsimp only
  split <;> rename_i h <;> simp [CreateBuffer, h]

theorem UpdateSize_of_eq (s : OneSweep) : UpdateSize s s.m_numKeys = s := by
  simp [UpdateSize]

theorem UpdateSize_of_ne (s : OneSweep) (N : Nat) (h : s.m_numKeys ≠ N) :
    UpdateSize s N =
      InitBuffers (DisposeBuffers { s with
          m_numKeys := N
          m_partitions := (N + s.k_partitionSize + (2 ^ 32 - 1)) % 2 ^ 32 / s.k_partitionSize })
        N ((N + s.k_partitionSize + (2 ^ 32 - 1)) % 2 ^ 32 / s.k_partitionSize) := by
  simp [UpdateSize, h]

/-- `UpdateSize` for a new size, in closed form. -/
theorem UpdateSize_fields (s : OneSweep) (N : Nat) (h : s.m_numKeys ≠ N) :
    (UpdateSize s N).m_numKeys = N ∧
    (UpdateSize s N).m_partitions =
      (N + s.k_partitionSize + (2 ^ 32 - 1)) % 2 ^ 32 / s.k_partitionSize ∧
    (UpdateSize s N).m_sortBuffer = some ⟨s.m_device.created, N * 4 % 2 ^ 32⟩ ∧
    (UpdateSize s N).m_altBuffer = some ⟨s.m_device.created + 1, N * 4 % 2 ^ 32⟩ ∧
    (UpdateSize s N).m_passHistBuffer = some ⟨s.m_device.created + 2,
      k_radix * k_radixPasses * (UpdateSize s N).m_partitions * 4 % 2 ^ 32⟩ ∧
    (UpdateSize s N).m_sortPayloadBuffer = some ⟨s.m_device.created + 3,
      if s.m_sortingConfig.sortingMode = .GPU_SORTING_PAIRS then N * 4 % 2 ^ 32 else 4⟩ ∧
    (UpdateSize s N).m_altPayloadBuffer = some ⟨s.m_device.created + 4,
      if s.m_sortingConfig.sortingMode = .GPU_SORTING_PAIRS then N * 4 % 2 ^ 32 else 4⟩ ∧
    (UpdateSize s N).fixedBuffers = s.fixedBuffers ∧
    (UpdateSize s N).m_device.created = s.m_device.created + 5 ∧
    (UpdateSize s N).m_device.mem = s.m_device.mem := by
  rw [UpdateSize_of_ne s N h, InitBuffers_eq, DisposeBuffers_eq]
  simp [OneSweep.fixedBuffers]

/-- The byte sizes the device holds after `UpdateSize` for a new size. -/
theorem UpdateSize_width (s : OneSweep) (N : Nat) (h : s.m_numKeys ≠ N) :
    (UpdateSize s N).m_device.width s.m_device.created = N * 4 % 2 ^ 32 ∧
    (UpdateSize s N).m_device.width (s.m_device.created + 1) = N * 4 % 2 ^ 32 ∧
    ∀ j, j < s.m_device.created → (UpdateSize s N).m_device.width j = s.m_device.width j := by
  rw [UpdateSize_of_ne s N h, InitBuffers_eq, DisposeBuffers_eq]
  refine ⟨by simp, by simp, ?_⟩
  intro j hj
  have h4 : j ≠ s.m_device.created + 4 := by omega
  have h3 : j ≠ s.m_device.created + 3 := by omega
  have h2 : j ≠ s.m_device.created + 2 := by omega
  have h1 : j ≠ s.m_device.created + 1 := by omega
  have h0 : j ≠ s.m_device.created := by omega
  simp [h4, h3, h2, h1, h0]

/-- Where the sum does not wrap, `UpdateSize` stores the ceiling of `N / k_partitionSize`. -/
theorem UpdateSize_partitions_of_no_wrap (s : OneSweep) (N : Nat) (hk : 0 < s.k_partitionSize)
    (hN : N + s.k_partitionSize ≤ 2 ^ 32) (hn : s.m_numKeys ≠ N) :
    (UpdateSize s N).m_partitions = ceilDiv N s.k_partitionSize := by
  have hw : (N + s.k_partitionSize + (2 ^ 32 - 1)) % 2 ^ 32 = N + s.k_partitionSize - 1 := by
    omega
  rw [(UpdateSize_fields s N hn).2.1, hw]
  rfl

/-- C2, the code at the failing input: for a partition size of at least 2 and
N = 2^32 - 1, the sum N + k_partitionSize - 1 wraps in `uint32_t` and `UpdateSize`
stores 0 partitions, while the ceiling of N / k_partitionSize is at least 1. -/
theorem UpdateSize_partitions_wraps (s : OneSweep) (hk : 2 ≤ s.k_partitionSize)
    (hk' : s.k_partitionSize < 2 ^ 32) (hn : s.m_numKeys ≠ 2 ^ 32 - 1) :
    (UpdateSize s (2 ^ 32 - 1)).m_partitions = 0 ∧
      1 ≤ ceilDiv (2 ^ 32 - 1) s.k_partitionSize ∧
      (UpdateSize s (2 ^ 32 - 1)).m_partitions ≠ ceilDiv (2 ^ 32 - 1) s.k_partitionSize := by
  have h0 : (UpdateSize s (2 ^ 32 - 1)).m_partitions = 0 := by
    rw [(UpdateSize_fields s _ hn).2.1]
    apply Nat.div_eq_of_lt
    omega
  have h1 : 1 ≤ ceilDiv (2 ^ 32 - 1) s.k_partitionSize := by
    by_contra hlt
    have hle : ceilDiv (2 ^ 32 - 1) s.k_partitionSize ≤ 0 := by omega
    have := (ceilDiv_le_iff _ _ 0 (by omega)).mp hle
    omega
  exact ⟨h0, h1, by omega⟩

theorem UpdateSize_partitions_wraps_witness :
    2 ≤ engine0.k_partitionSize ∧ engine0.k_partitionSize < 2 ^ 32 ∧
      engine0.m_numKeys ≠ 2 ^ 32 - 1 ∧
      (UpdateSize engine0 (2 ^ 32 - 1)).m_partitions = 0 ∧
      1 ≤ ceilDiv (2 ^ 32 - 1) engine0.k_partitionSize ∧
      (UpdateSize engine0 (2 ^ 32 - 1)).m_partitions ≠
        ceilDiv (2 ^ 32 - 1) engine0.k_partitionSize :=
  ⟨by decide, by decide, by decide,
    UpdateSize_partitions_wraps engine0 (by decide) (by decide) (by decide)⟩

/-- C9, the code at the failing input: for N = 2^30 the byte size 4 * N is 2^32, the
`uint32_t` parameter of `CreateBuffer` reduces it to 0, and both key buffers are
created with 0 bytes, not with N elements. -/
theorem UpdateSize_keyBuffers_truncated (s : OneSweep) (hn : s.m_numKeys ≠ 2 ^ 30) :
    (UpdateSize s (2 ^ 30)).m_sortBuffer.map Resource.width = some 0 ∧
      (UpdateSize s (2 ^ 30)).m_altBuffer.map Resource.width = some 0 ∧
      (UpdateSize s (2 ^ 30)).m_numKeys = 2 ^ 30 := by
  obtain ⟨h1, _, h3, h4, _⟩ := UpdateSize_fields s (2 ^ 30) hn
  rw [h3, h4, h1]
  simp

theorem UpdateSize_keyBuffers_truncated_witness :
    engine0.m_numKeys ≠ 2 ^ 30 ∧
      (UpdateSize engine0 (2 ^ 30)).m_sortBuffer.map Resource.width = some 0 ∧
      (UpdateSize engine0 (2 ^ 30)).m_altBuffer.map Resource.width = some 0 ∧
      (UpdateSize engine0 (2 ^ 30)).m_numKeys = 2 ^ 30 :=
  ⟨by decide, UpdateSize_keyBuffers_truncated engine0 (by decide)⟩

/-- Below 2^30 elements the key buffers get exactly 4 * N bytes. -/
theorem UpdateSize_keyBuffers_of_lt (s : OneSweep) (N : Nat) (hN : N < 2 ^ 30)
    (hn : s.m_numKeys ≠ N) :
    (UpdateSize s N).m_sortBuffer.map Resource.width = some (4 * N) ∧
      (UpdateSize s N).m_altBuffer.map Resource.width = some (4 * N) := by
  obtain ⟨_, _, h3, h4, _⟩ := UpdateSize_fields s N hn
  rw [h3, h4]
  have hw : N * 4 % 2 ^ 32 = 4 * N := by omega
  rw [hw]
  exact ⟨rfl, rfl⟩

theorem digitBinningLoop_done (s : OneSweep) : digitBinningLoop s 32 = .ok s := by
  rw [digitBinningLoop]; rfl

theorem digitBinningLoop_step (s : OneSweep) (radixShift : Nat) (h : radixShift < 32) :
    digitBinningLoop s radixShift =
      (digitBinningStep s radixShift >>= fun t => digitBinningLoop t (radixShift + 8)) := by
  rw [digitBinningLoop, if_pos h]

/-- `PrepareSortCmdList` in closed form: it appends the commands of `sortCmds` and
changes nothing else; the handles are swapped four times and end where they began. -/
theorem PrepareSortCmdList_eq (s : OneSweep) (a b p g i : Resource)
    (ha : s.m_sortBuffer = some a) (hb : s.m_altBuffer = some b)
    (hp : s.m_passHistBuffer = some p) (hg : s.m_globalHistBuffer = some g)
    (hi : s.m_indexBuffer = some i) :
    PrepareSortCmdList s = .ok { s with
      m_cmdList := s.m_cmdList ++ sortCmds a.id b.id (s.m_sortPayloadBuffer.map Resource.id)
        (s.m_altPayloadBuffer.map Resource.id) p.id g.id i.id s.m_numKeys s.m_partitions } := by
  cases s
  simp only at ha hb hp hg hi
  subst ha hb hp hg hi
  simp only [PrepareSortCmdList, deref, bind, Except.bind, UAVBarrierSingle]
  rw [digitBinningLoop_step _ 0 (by decide)]
  simp only [digitBinningStep, deref, bind, Except.bind, UAVBarrierSingle, pure, Except.pure]
  rw [digitBinningLoop_step _ 8 (by decide)]
  simp only [digitBinningStep, deref, bind, Except.bind, UAVBarrierSingle, pure, Except.pure]
  rw [digitBinningLoop_step _ 16 (by decide)]
  simp only [digitBinningStep, deref, bind, Except.bind, UAVBarrierSingle, pure, Except.pure]
  rw [digitBinningLoop_step _ 24 (by decide)]
  simp only [digitBinningStep, deref, bind, Except.bind, UAVBarrierSingle, pure, Except.pure]
  rw [digitBinningLoop_done]
  simp [sortCmds]

/-- C8: with its buffers allocated, `PrepareSortCmdList` appends to the command list,
without submitting it, exactly: the `InitOneSweep` dispatch and barriers on global
histogram, pass histogram and index buffer; the `GlobalHist` dispatch and barriers on
sort buffer and global histogram; then four `DigitBinningPass` dispatches with shifts
0, 8, 16, 24, each followed by barriers on the four key and payload buffers. Pass 0
reads the sort buffer `a`; every later pass reads the destination of the pass before it
and writes the other buffer of the pair. Nothing else in the state changes. -/
theorem PrepareSortCmdList_records (s : OneSweep) (a b p g i : Resource)
    (ha : s.m_sortBuffer = some a) (hb : s.m_altBuffer = some b)
    (hp : s.m_passHistBuffer = some p) (hg : s.m_globalHistBuffer = some g)
    (hi : s.m_indexBuffer = some i) :
    PrepareSortCmdList s = .ok { s with
      m_cmdList := s.m_cmdList ++
        [Cmd.InitOneSweep g.id p.id i.id s.m_partitions,
         Cmd.UAVBarrier (some g.id), Cmd.UAVBarrier (some p.id), Cmd.UAVBarrier (some i.id),
         Cmd.GlobalHist a.id g.id s.m_numKeys s.m_partitions,
         Cmd.UAVBarrier (some a.id), Cmd.UAVBarrier (some g.id),
         Cmd.DigitBinningPass a.id b.id g.id p.id i.id s.m_numKeys s.m_partitions 0,
         Cmd.UAVBarrier (some a.id), Cmd.UAVBarrier (s.m_sortPayloadBuffer.map Resource.id),
         Cmd.UAVBarrier (some b.id), Cmd.UAVBarrier (s.m_altPayloadBuffer.map Resource.id),
         Cmd.DigitBinningPass b.id a.id g.id p.id i.id s.m_numKeys s.m_partitions 8,
         Cmd.UAVBarrier (some b.id), Cmd.UAVBarrier (s.m_altPayloadBuffer.map Resource.id),
         Cmd.UAVBarrier (some a.id), Cmd.UAVBarrier (s.m_sortPayloadBuffer.map Resource.id),
         Cmd.DigitBinningPass a.id b.id g.id p.id i.id s.m_numKeys s.m_partitions 16,
         Cmd.UAVBarrier (some a.id), Cmd.UAVBarrier (s.m_sortPayloadBuffer.map Resource.id),
         Cmd.UAVBarrier (some b.id), Cmd.UAVBarrier (s.m_altPayloadBuffer.map Resource.id),
         Cmd.DigitBinningPass b.id a.id g.id p.id i.id s.m_numKeys s.m_partitions 24,
         Cmd.UAVBarrier (some b.id), Cmd.UAVBarrier (s.m_altPayloadBuffer.map Resource.id),
         Cmd.UAVBarrier (some a.id), Cmd.UAVBarrier (s.m_sortPayloadBuffer.map Resource.id)] } :=
  PrepareSortCmdList_eq s a b p g i ha hb hp hg hi

theorem PrepareSortCmdList_records_witness :
    engine1.m_sortBuffer = some ⟨4, 20⟩ ∧ engine1.m_altBuffer = some ⟨5, 20⟩ ∧
      engine1.m_passHistBuffer = some ⟨6, 4096⟩ ∧ engine1.m_globalHistBuffer = some ⟨0, 4096⟩ ∧
      engine1.m_indexBuffer = some ⟨1, 16⟩ ∧
      PrepareSortCmdList engine1 = .ok { engine1 with
        m_cmdList := engine1.m_cmdList ++
          [Cmd.InitOneSweep 0 6 1 engine1.m_partitions,
           Cmd.UAVBarrier (some 0), Cmd.UAVBarrier (some 6), Cmd.UAVBarrier (some 1),
           Cmd.GlobalHist 4 0 engine1.m_numKeys engine1.m_partitions,
           Cmd.UAVBarrier (some 4), Cmd.UAVBarrier (some 0),
           Cmd.DigitBinningPass 4 5 0 6 1 engine1.m_numKeys engine1.m_partitions 0,
           Cmd.UAVBarrier (some 4), Cmd.UAVBarrier (engine1.m_sortPayloadBuffer.map Resource.id),
           Cmd.UAVBarrier (some 5), Cmd.UAVBarrier (engine1.m_altPayloadBuffer.map Resource.id),
           Cmd.DigitBinningPass 5 4 0 6 1 engine1.m_numKeys engine1.m_partitions 8,
           Cmd.UAVBarrier (some 5), Cmd.UAVBarrier (engine1.m_altPayloadBuffer.map Resource.id),
           Cmd.UAVBarrier (some 4), Cmd.UAVBarrier (engine1.m_sortPayloadBuffer.map Resource.id),
           Cmd.DigitBinningPass 4 5 0 6 1 engine1.m_numKeys engine1.m_partitions 16,
           Cmd.UAVBarrier (some 4), Cmd.UAVBarrier (engine1.m_sortPayloadBuffer.map Resource.id),
           Cmd.UAVBarrier (some 5), Cmd.UAVBarrier (engine1.m_altPayloadBuffer.map Resource.id),
           Cmd.DigitBinningPass 5 4 0 6 1 engine1.m_numKeys engine1.m_partitions 24,
           Cmd.UAVBarrier (some 5), Cmd.UAVBarrier (engine1.m_altPayloadBuffer.map Resource.id),
           Cmd.UAVBarrier (some 4),
           Cmd.UAVBarrier (engine1.m_sortPayloadBuffer.map Resource.id)] } :=
  ⟨by decide, by decide, by decide, by decide, by decide,
    PrepareSortCmdList_records engine1 ⟨4, 20⟩ ⟨5, 20⟩ ⟨6, 4096⟩ ⟨0, 4096⟩ ⟨1, 16⟩
      (by decide) (by decide) (by decide) (by decide) (by decide)⟩

/-- C6: with its buffers allocated, after `PrepareSortCmdList` the handles `m_sortBuffer`,
`m_altBuffer`, `m_sortPayloadBuffer` and `m_altPayloadBuffer` refer to the buffers they
referred to before, and the last digit-binning pass recorded by the call writes into
the buffer that `m_sortBuffer` refers to, the one that held the input. -/
theorem PrepareSortCmdList_handles (s : OneSweep) (a b p g i : Resource)
    (ha : s.m_sortBuffer = some a) (hb : s.m_altBuffer = some b)
    (hp : s.m_passHistBuffer = some p) (hg : s.m_globalHistBuffer = some g)
    (hi : s.m_indexBuffer = some i) :
    ∃ t, PrepareSortCmdList s = .ok t ∧
      t.m_sortBuffer = s.m_sortBuffer ∧ t.m_altBuffer = s.m_altBuffer ∧
      t.m_sortPayloadBuffer = s.m_sortPayloadBuffer ∧
      t.m_altPayloadBuffer = s.m_altPayloadBuffer ∧
      (passDestinations (t.m_cmdList.drop s.m_cmdList.length)).getLast? = some a.id ∧
      t.m_sortBuffer = some a := by
  refine ⟨_, PrepareSortCmdList_eq s a b p g i ha hb hp hg hi, rfl, rfl, rfl, rfl, ?_, ha⟩
  simp [sortCmds, passDestinations]

theorem PrepareSortCmdList_handles_witness :
    engine1.m_sortBuffer = some ⟨4, 20⟩ ∧ engine1.m_altBuffer = some ⟨5, 20⟩ ∧
      engine1.m_passHistBuffer = some ⟨6, 4096⟩ ∧ engine1.m_globalHistBuffer = some ⟨0, 4096⟩ ∧
      engine1.m_indexBuffer = some ⟨1, 16⟩ ∧
      ∃ t, PrepareSortCmdList engine1 = .ok t ∧
        t.m_sortBuffer = engine1.m_sortBuffer ∧ t.m_altBuffer = engine1.m_altBuffer ∧
        t.m_sortPayloadBuffer = engine1.m_sortPayloadBuffer ∧
        t.m_altPayloadBuffer = engine1.m_altPayloadBuffer ∧
        (passDestinations (t.m_cmdList.drop engine1.m_cmdList.length)).getLast? = some 4 ∧
        t.m_sortBuffer = some ⟨4, 20⟩ :=
  ⟨by decide, by decide, by decide, by decide, by decide,
    PrepareSortCmdList_handles engine1 ⟨4, 20⟩ ⟨5, 20⟩ ⟨6, 4096⟩ ⟨0, 4096⟩ ⟨1, 16⟩
      (by decide) (by decide) (by decide) (by decide) (by decide)⟩


/-! ## The digit scatter and the four passes -/

theorem digit_lt (radixShift key : Nat) : digit radixShift key < k_radix :=
  Nat.mod_lt _ (by decide)

/-- The bins up to `n` hold exactly the keys whose digit is below `n`. -/
theorem bins_perm_filter (f : Nat → Nat) (l : List Nat) (n : Nat) :
    ((List.range n).flatMap (fun d => l.filter (fun k => f k == d))).Perm
      (l.filter (fun k => decide (f k < n))) := by
  induction n with
  | zero => simp
  | succ n ih =>
    rw [List.range_succ, List.flatMap_append, List.flatMap_singleton]
    have hsplit := List.filter_append_perm (fun k => decide (f k < n))
      (l.filter (fun k => decide (f k < n + 1)))
    rw [List.filter_filter, List.filter_filter] at hsplit
    have e1 : l.filter (fun a => decide (f a < n) && decide (f a < n + 1)) =
        l.filter (fun k => decide (f k < n)) := by
      apply List.filter_congr
      intro x _
      by_cases h : f x < n
      · have : f x < n + 1 := by omega
        simp [h, this]
      · simp [h]
    have e2 : l.filter (fun a => (!decide (f a < n)) && decide (f a < n + 1)) =
        l.filter (fun k => f k == n) := by
      apply List.filter_congr
      intro x _
      by_cases h : f x = n
      · simp [h]
      · have hb : (f x == n) = false := by simpa using h
        rw [hb]
        by_cases h1 : f x < n
        · simp [h1]
        · have h2 : ¬ f x < n + 1 := by omega
          simp [h2]
    rw [e1, e2] at hsplit
    exact (List.Perm.append_right _ ih).trans hsplit

theorem scatter_perm (cfg : GPUSortingConfig) (radixShift : Nat) (keys : List Nat) :
    (scatter cfg radixShift keys).Perm keys := by
  have hall : keys.filter
      (fun k => decide (digit radixShift (radixKey cfg.sortingKeyType k) < k_radix)) = keys := by
    apply List.filter_eq_self.mpr
    intro a _
    simpa using digit_lt radixShift (radixKey cfg.sortingKeyType a)
  have hasc := bins_perm_filter (fun k => digit radixShift (radixKey cfg.sortingKeyType k))
    keys k_radix
  rw [hall] at hasc
  unfold scatter
  cases cfg.sortingOrder with
  | GPU_SORTING_ASCENDING => exact hasc
  | GPU_SORTING_DESCENDING =>
    exact (List.Perm.flatMap_right _ (List.reverse_perm _)).trans hasc

theorem length_scatter (cfg : GPUSortingConfig) (radixShift : Nat) (keys : List Nat) :
    (scatter cfg radixShift keys).length = keys.length :=
  (scatter_perm cfg radixShift keys).length_eq

theorem mem_scatter (cfg : GPUSortingConfig) (radixShift : Nat) (keys : List Nat) (k : Nat) :
    k ∈ scatter cfg radixShift keys ↔ k ∈ keys :=
  (scatter_perm cfg radixShift keys).mem_iff

/-- The low `radixShift + 8` bits are the digit at `radixShift` above the low `radixShift` bits. -/
theorem mod_pow_add_eight (radixShift key : Nat) :
    key % 2 ^ (radixShift + 8) =
      key % 2 ^ radixShift + 2 ^ radixShift * digit radixShift key := by
  rw [pow_add, Nat.mod_mul]
  rfl

theorem low_bits_le_of_digit_lt (radixShift x y : Nat)
    (h : digit radixShift x < digit radixShift y) :
    x % 2 ^ (radixShift + 8) ≤ y % 2 ^ (radixShift + 8) := by
  rw [mod_pow_add_eight, mod_pow_add_eight]
  have hx : x % 2 ^ radixShift < 2 ^ radixShift := Nat.mod_lt _ (by positivity)
  have hm : 2 ^ radixShift * (digit radixShift x + 1) ≤ 2 ^ radixShift * digit radixShift y :=
    Nat.mul_le_mul_left _ h
  rw [Nat.mul_add, Nat.mul_one] at hm
  omega

theorem low_bits_le_of_digit_eq (radixShift x y : Nat)
    (h : digit radixShift x = digit radixShift y)
    (hlow : x % 2 ^ radixShift ≤ y % 2 ^ radixShift) :
    x % 2 ^ (radixShift + 8) ≤ y % 2 ^ (radixShift + 8) := by
  rw [mod_pow_add_eight, mod_pow_add_eight, h]
  omega

/-- One pass: keys whose radix words are ordered on their low `radixShift` bits come
out with them ordered on their low `radixShift + 8` bits. -/
theorem scatter_pairwise (cfg : GPUSortingConfig) (radixShift : Nat) (keys : List Nat)
    (h : keys.Pairwise (fun a b =>
      precedes cfg.sortingOrder (radixKey cfg.sortingKeyType a % 2 ^ radixShift)
        (radixKey cfg.sortingKeyType b % 2 ^ radixShift))) :
    (scatter cfg radixShift keys).Pairwise (fun a b =>
      precedes cfg.sortingOrder (radixKey cfg.sortingKeyType a % 2 ^ (radixShift + 8))
        (radixKey cfg.sortingKeyType b % 2 ^ (radixShift + 8))) := by
  unfold scatter
  rw [List.pairwise_flatMap]
  constructor
  · intro d _
    refine List.Pairwise.imp_of_mem ?_ (h.filter _)
    intro a b ha hb hab
    have da : digit radixShift (radixKey cfg.sortingKeyType a) = d := by
      simpa using (List.mem_filter.mp ha).2
    have db : digit radixShift (radixKey cfg.sortingKeyType b) = d := by
      simpa using (List.mem_filter.mp hb).2
    cases ho : cfg.sortingOrder with
    | GPU_SORTING_ASCENDING =>
      rw [ho] at hab
      exact low_bits_le_of_digit_eq radixShift _ _ (da.trans db.symm) hab
    | GPU_SORTING_DESCENDING =>
      rw [ho] at hab
      exact low_bits_le_of_digit_eq radixShift _ _ (db.trans da.symm) hab
  · cases ho : cfg.sortingOrder with
    | GPU_SORTING_ASCENDING =>
      refine List.Pairwise.imp ?_ (List.pairwise_lt_range k_radix)
      intro d1 d2 hlt x hx y hy
      have dx : digit radixShift (radixKey cfg.sortingKeyType x) = d1 := by
        simpa using (List.mem_filter.mp hx).2
      have dy : digit radixShift (radixKey cfg.sortingKeyType y) = d2 := by
        simpa using (List.mem_filter.mp hy).2
      exact low_bits_le_of_digit_lt radixShift _ _ (by omega)
    | GPU_SORTING_DESCENDING =>
      refine List.Pairwise.imp ?_ (List.pairwise_reverse.mpr (List.pairwise_lt_range k_radix))
      intro d1 d2 hlt x hx y hy
      have dx : digit radixShift (radixKey cfg.sortingKeyType x) = d1 := by
        simpa using (List.mem_filter.mp hx).2
      have dy : digit radixShift (radixKey cfg.sortingKeyType y) = d2 := by
        simpa using (List.mem_filter.mp hy).2
      exact low_bits_le_of_digit_lt radixShift _ _ (by omega)

theorem radixSort_perm (cfg : GPUSortingConfig) (keys : List Nat) :
    (radixSort cfg keys).Perm keys :=
  (scatter_perm cfg 24 _).trans ((scatter_perm cfg 16 _).trans
    ((scatter_perm cfg 8 _).trans (scatter_perm cfg 0 _)))

theorem radixKey_lt (keyType : GPU_SORTING_KEY_TYPE) (w : Nat) (h : w < 2 ^ 32) :
    radixKey keyType w < 2 ^ 32 := by
  cases keyType
  · exact h
  · exact Nat.mod_lt _ (by positivity)
  · by_cases hw : w < 2 ^ 31
    · simp only [radixKey, hw, if_true]; omega
    · simp only [radixKey, hw, if_false]; omega

/-- The radix words of 32-bit keys are ordered as the keys are in their key type. -/
theorem radixKey_le_iff (keyType : GPU_SORTING_KEY_TYPE) (a b : Nat)
    (ha : a < 2 ^ 32) (hb : b < 2 ^ 32) :
    radixKey keyType a ≤ radixKey keyType b ↔ keyValue keyType a ≤ keyValue keyType b := by
  cases keyType
  · simp [radixKey, keyValue]
  · by_cases ha2 : a < 2 ^ 31 <;> by_cases hb2 : b < 2 ^ 31 <;>
      simp only [radixKey, keyValue, ha2, hb2, if_true, if_false] <;> omega
  · by_cases ha2 : a < 2 ^ 31 <;> by_cases hb2 : b < 2 ^ 31 <;>
      simp only [radixKey, keyValue, ha2, hb2, if_true, if_false] <;> omega

/-- Four passes over 32-bit keys leave them monotonic per the configured order of
the configured key type. -/
theorem radixSort_monotonic (cfg : GPUSortingConfig) (keys : List Nat)
    (h32 : ∀ k ∈ keys, k < 2 ^ 32) : Monotonic cfg (radixSort cfg keys) := by
  have h0 : keys.Pairwise (fun a b =>
      precedes cfg.sortingOrder (radixKey cfg.sortingKeyType a % 2 ^ 0)
        (radixKey cfg.sortingKeyType b % 2 ^ 0)) := by
    apply List.pairwise_of_forall
    intro a b
    cases cfg.sortingOrder <;> simp [precedes, Nat.mod_one]
  have h4 := scatter_pairwise cfg 24 _ (scatter_pairwise cfg 16 _
    (scatter_pairwise cfg 8 _ (scatter_pairwise cfg 0 keys h0)))
  unfold Monotonic
  refine List.Pairwise.imp_of_mem ?_ h4
  intro a b ha hb hab
  have ha' : a < 2 ^ 32 := h32 a ((radixSort_perm cfg keys).mem_iff.mp ha)
  have hb' : b < 2 ^ 32 := h32 b ((radixSort_perm cfg keys).mem_iff.mp hb)
  have ea : radixKey cfg.sortingKeyType a % 2 ^ (24 + 8) = radixKey cfg.sortingKeyType a :=
    Nat.mod_eq_of_lt (radixKey_lt _ a ha')
  have eb : radixKey cfg.sortingKeyType b % 2 ^ (24 + 8) = radixKey cfg.sortingKeyType b :=
    Nat.mod_eq_of_lt (radixKey_lt _ b hb')
  rw [ea, eb] at hab
  unfold inOrder
  cases ho : cfg.sortingOrder with
  | GPU_SORTING_ASCENDING =>
    rw [ho] at hab
    exact decide_eq_true ((radixKey_le_iff _ a b ha' hb').mp hab)
  | GPU_SORTING_DESCENDING =>
    rw [ho] at hab
    exact decide_eq_true ((radixKey_le_iff _ b a hb' ha').mp hab)

theorem countErrors_eq_zero (cfg : GPUSortingConfig) (keys : List Nat)
    (h : Monotonic cfg keys) : countErrors cfg keys = 0 := by
  induction keys with
  | nil => rfl
  | cons a rest ih =>
    cases rest with
    | nil => rfl
    | cons b rest =>
      unfold Monotonic at h ih
      rw [List.pairwise_cons] at h
      have hab := h.1 b (List.mem_cons_self _ _)
      simp only [countErrors, hab, if_true, Nat.zero_add]
      exact ih h.2

theorem testInput_length (W : World) (seed numKeys : Nat) :
    (testInput W seed numKeys).length = numKeys := by
  simp [testInput]

theorem testInput_lt (W : World) (seed numKeys : Nat) :
    ∀ k ∈ testInput W seed numKeys, k < 2 ^ 32 := by
  intro k hk
  simp only [testInput, List.mem_map] at hk
  obtain ⟨i, _, rfl⟩ := hk
  exact Nat.mod_lt _ (by positivity)

/-! ## Executing recorded commands -/

@[simp] theorem write_mem_self (d : Device) (i : Nat) (w : List Nat) :
    (d.write i w).mem i = w := by
  simp [Device.write]

theorem write_mem_of_ne (d : Device) (i j : Nat) (w : List Nat) (h : j ≠ i) :
    (d.write i w).mem j = d.mem j := by
  simp [Device.write, h]

@[simp] theorem write_created (d : Device) (i : Nat) (w : List Nat) :
    (d.write i w).created = d.created := rfl

@[simp] theorem write_live (d : Device) (i : Nat) (w : List Nat) :
    (d.write i w).live = d.live := rfl

@[simp] theorem write_queryHeap (d : Device) (i : Nat) (w : List Nat) :
    (d.write i w).queryHeap = d.queryHeap := rfl

@[simp] theorem write_timestamps (d : Device) (i : Nat) (w : List Nat) :
    (d.write i w).timestamps = d.timestamps := rfl

@[simp] theorem write_width (d : Device) (i : Nat) (w : List Nat) :
    (d.write i w).width = d.width := rfl

@[simp] theorem store_width (d : Device) (i : Nat) (w : List Nat) :
    (d.store i w).width = d.width := rfl

@[simp] theorem store_created (d : Device) (i : Nat) (w : List Nat) :
    (d.store i w).created = d.created := rfl

@[simp] theorem store_live (d : Device) (i : Nat) (w : List Nat) :
    (d.store i w).live = d.live := rfl

@[simp] theorem store_queryHeap (d : Device) (i : Nat) (w : List Nat) :
    (d.store i w).queryHeap = d.queryHeap := rfl

@[simp] theorem store_timestamps (d : Device) (i : Nat) (w : List Nat) :
    (d.store i w).timestamps = d.timestamps := rfl

theorem store_mem_of_ne (d : Device) (i j : Nat) (w : List Nat) (h : j ≠ i) :
    (d.store i w).mem j = d.mem j := by
  simp [Device.store, Device.write, h]

theorem store_mem_self (d : Device) (i : Nat) (w : List Nat) :
    (d.store i w).mem i = (overwrite (d.mem i) 0 w).take (d.width i / 4) := by
  simp [Device.store]

/-- A store of as many words as the buffer holds replaces its contents. -/
theorem store_mem_self_of_full (d : Device) (i : Nat) (w : List Nat)
    (h : d.width i / 4 = w.length) : (d.store i w).mem i = w := by
  rw [store_mem_self, h]
  simp [overwrite]

/-- The first word after a store of one word into a buffer, whatever its size. -/
theorem store_word_getD (d : Device) (i x : Nat) :
    ((d.store i [x]).mem i).getD 0 0 = if d.width i / 4 = 0 then 0 else x := by
  rw [store_mem_self]
  cases h : d.width i / 4 with
  | zero => simp
  | succ n => simp [overwrite]

theorem exec_created (W : World) (cfg : GPUSortingConfig) (ps : Nat) (d : Device) (c : Cmd) :
    (exec W cfg ps d c).created = d.created := by
  cases c <;> rfl

theorem exec_live (W : World) (cfg : GPUSortingConfig) (ps : Nat) (d : Device) (c : Cmd) :
    (exec W cfg ps d c).live = d.live := by
  cases c <;> rfl

theorem exec_width (W : World) (cfg : GPUSortingConfig) (ps : Nat) (d : Device) (c : Cmd) :
    (exec W cfg ps d c).width = d.width := by
  cases c <;> rfl

/-- Running commands neither creates nor releases a resource. -/
theorem foldl_exec_frame (W : World) (cfg : GPUSortingConfig) (ps : Nat) (cmds : List Cmd)
    (d : Device) :
    (cmds.foldl (exec W cfg ps) d).created = d.created ∧
      (cmds.foldl (exec W cfg ps) d).live = d.live := by
  induction cmds generalizing d with
  | nil => exact ⟨rfl, rfl⟩
  | cons c cs ih =>
    rw [List.foldl_cons]
    exact ⟨(ih _).1.trans (exec_created W cfg ps d c), (ih _).2.trans (exec_live W cfg ps d c)⟩

/-- Running commands resizes no resource. -/
theorem foldl_exec_width (W : World) (cfg : GPUSortingConfig) (ps : Nat) (cmds : List Cmd)
    (d : Device) : (cmds.foldl (exec W cfg ps) d).width = d.width := by
  induction cmds generalizing d with
  | nil => rfl
  | cons c cs ih =>
    rw [List.foldl_cons]
    exact (ih _).trans (exec_width W cfg ps d c)

/-- The sort pipeline leaves the sort buffer radix-sorted, provided the two key
buffers have room for `numKeys` keys, the sort buffer holds that many, the
partitions cover them, and the sort buffer is none of the histogram and index
buffers. -/
theorem sortCmds_mem (W : World) (cfg : GPUSortingConfig) (ps : Nat) (d : Device) (a b : Nat)
    (pa pb : Option Nat) (p g i numKeys partitions : Nat)
    (hg : a ≠ g) (hp : a ≠ p) (hi : a ≠ i) (hlen : (d.mem a).length = numKeys)
    (hwa : d.width a / 4 = numKeys) (hwb : d.width b / 4 = numKeys)
    (hcov : numKeys ≤ partitions * ps) :
    ((sortCmds a b pa pb p g i numKeys partitions).foldl (exec W cfg ps) d).mem a =
      radixSort cfg (d.mem a) := by
  have hmin : min numKeys (partitions * ps) = numKeys := Nat.min_eq_left hcov
  have t0 : (d.mem a).take numKeys = d.mem a := List.take_of_length_le (by omega)
  have t1 : ∀ sh l, l.length = numKeys →
      (scatter cfg sh l).take numKeys = scatter cfg sh l := by
    intro sh l hl
    exact List.take_of_length_le (by rw [length_scatter]; omega)
  have l1 : (scatter cfg 0 (d.mem a)).length = numKeys := by rw [length_scatter]; exact hlen
  have l2 : (scatter cfg 8 (scatter cfg 0 (d.mem a))).length = numKeys := by
    rw [length_scatter]; exact l1
  have l3 : (scatter cfg 16 (scatter cfg 8 (scatter cfg 0 (d.mem a)))).length = numKeys := by
    rw [length_scatter]; exact l2
  have l4 : (radixSort cfg (d.mem a)).length = numKeys := by
    unfold radixSort; rw [length_scatter]; exact l3
  simp only [sortCmds, List.foldl_cons, List.foldl_nil, exec, hmin, store_width,
    store_mem_of_ne _ _ _ _ hg, store_mem_of_ne _ _ _ _ hp, store_mem_of_ne _ _ _ _ hi,
    store_mem_self_of_full, length_scatter, List.length_take, hlen, hwa, hwb, Nat.min_self, t0,
    List.take_of_length_le, Nat.le_refl]
  rfl

/-- A sort buffer of fewer than four bytes holds no key after the pipeline. -/
theorem sortCmds_mem_zero (W : World) (cfg : GPUSortingConfig) (ps : Nat) (d : Device)
    (a b : Nat) (pa pb : Option Nat) (p g i numKeys partitions : Nat)
    (hwa : d.width a / 4 = 0) :
    ((sortCmds a b pa pb p g i numKeys partitions).foldl (exec W cfg ps) d).mem a = [] := by
  simp only [sortCmds, List.foldl_cons, List.foldl_nil, exec]
  rw [store_mem_self]
  simp only [store_width, hwa, List.take_zero]

theorem sortCmds_query (W : World) (cfg : GPUSortingConfig) (ps : Nat) (d : Device) (a b : Nat)
    (pa pb : Option Nat) (p g i numKeys partitions : Nat) :
    ((sortCmds a b pa pb p g i numKeys partitions).foldl (exec W cfg ps) d).queryHeap =
        d.queryHeap ∧
      ((sortCmds a b pa pb p g i numKeys partitions).foldl (exec W cfg ps) d).timestamps =
        d.timestamps := by
  simp only [sortCmds, List.foldl_cons, List.foldl_nil, exec, store_queryHeap,
    store_timestamps, and_self]

/-! ## Closed forms of the recording operations -/

theorem ExecuteCommandList_eq (W : World) (s : OneSweep) :
    ExecuteCommandList W s =
      s.ran s.m_cmdList
        (s.m_cmdList.foldl (exec W s.m_sortingConfig s.k_partitionSize) s.m_device)
        ((s.m_nextFenceValue + 1) % 2 ^ 64) := rfl

theorem CreateTestInput_eq (W : World) (s : OneSweep) (seed : Nat) (a pl : Resource)
    (ha : s.m_sortBuffer = some a) (hpl : s.m_sortPayloadBuffer = some pl) :
    CreateTestInput W s seed = .ok
      (s.ran (s.m_cmdList ++ [Cmd.InitSortInput a.id pl.id s.m_numKeys seed,
          Cmd.UAVBarrier (some a.id)])
        ((s.m_cmdList ++ [Cmd.InitSortInput a.id pl.id s.m_numKeys seed,
          Cmd.UAVBarrier (some a.id)]).foldl (exec W s.m_sortingConfig s.k_partitionSize)
            s.m_device)
        ((s.m_nextFenceValue + 1) % 2 ^ 64)) := by
  cases s
  simp only at ha hpl
  subst ha hpl
  simp [CreateTestInput, deref, bind, Except.bind, UAVBarrierSingle, pure, Except.pure,
    ExecuteCommandList, OneSweep.ran]

/-- The word a one-word copy leaves at the start of its destination. -/
theorem copyWords_one_getElem (dst src : List Nat) :
    (copyWords dst 0 src 0 1)[0]?.getD 0 = src[0]?.getD 0 := by
  simp [copyWords, overwrite, readWords, List.range_succ]

theorem copyWords_one_getD (dst src : List Nat) :
    (copyWords dst 0 src 0 1).getD 0 0 = src.getD 0 0 := by
  simp [copyWords, overwrite, readWords, List.range_succ]

/-- The commands of the validation stage, for error counter `e`, key buffer `a` and
payload buffer `pl`. -/
theorem validateCmds_foldl (W : World) (cfg : GPUSortingConfig) (ps : Nat) (d : Device)
    (e a pl numKeys : Nat) :
    [Cmd.ClearErrorCount e, Cmd.UAVBarrier (some e), Cmd.Validate a pl e numKeys,
        Cmd.UAVBarrier (some e)].foldl (exec W cfg ps) d =
      (d.store e [0]).store e
        [(((d.store e [0]).mem e).getD 0 0 +
          countErrors cfg (((d.store e [0]).mem a).take numKeys)) % 2 ^ 32] := rfl

/-- `ValidateOutput` in closed form: two submissions, the validation stage and the
copy of the counter, and a result read from the staging buffer. -/
theorem ValidateOutput_eq (W : World) (s : OneSweep) (shouldPrint : Bool) (e a pl rb : Resource)
    (he : s.m_errorCountBuffer = some e) (ha : s.m_sortBuffer = some a)
    (hpl : s.m_sortPayloadBuffer = some pl) (hrb : s.m_readBackBuffer = some rb)
    (hw : 4 ≤ rb.width) :
    ValidateOutput W s shouldPrint = .ok
      (decide ((((s.m_cmdList ++ [Cmd.ClearErrorCount e.id, Cmd.UAVBarrier (some e.id),
          Cmd.Validate a.id pl.id e.id s.m_numKeys, Cmd.UAVBarrier (some e.id)]).foldl
          (exec W s.m_sortingConfig s.k_partitionSize) s.m_device).mem e.id).getD 0 0 = 0),
       { (s.ran (s.m_cmdList ++ [Cmd.ClearErrorCount e.id, Cmd.UAVBarrier (some e.id),
              Cmd.Validate a.id pl.id e.id s.m_numKeys, Cmd.UAVBarrier (some e.id)])
            ((s.m_cmdList ++ [Cmd.ClearErrorCount e.id, Cmd.UAVBarrier (some e.id),
              Cmd.Validate a.id pl.id e.id s.m_numKeys, Cmd.UAVBarrier (some e.id)]).foldl
              (exec W s.m_sortingConfig s.k_partitionSize) s.m_device)
            ((s.m_nextFenceValue + 1) % 2 ^ 64)).ran
          [Cmd.CopyBufferRegion rb.id 0 e.id 0 4]
          (exec W s.m_sortingConfig s.k_partitionSize
            ((s.m_cmdList ++ [Cmd.ClearErrorCount e.id, Cmd.UAVBarrier (some e.id),
              Cmd.Validate a.id pl.id e.id s.m_numKeys, Cmd.UAVBarrier (some e.id)]).foldl
              (exec W s.m_sortingConfig s.k_partitionSize) s.m_device)
            (Cmd.CopyBufferRegion rb.id 0 e.id 0 4))
          (((s.m_nextFenceValue + 1) % 2 ^ 64 + 1) % 2 ^ 64) with
        stdout :=
          if shouldPrint then
            s.stdout ++ [Line.sortName, Line.config s.m_sortingConfig,
              if ((((s.m_cmdList ++ [Cmd.ClearErrorCount e.id, Cmd.UAVBarrier (some e.id),
                Cmd.Validate a.id pl.id e.id s.m_numKeys, Cmd.UAVBarrier (some e.id)]).foldl
                (exec W s.m_sortingConfig s.k_partitionSize) s.m_device).mem e.id).getD 0 0) ≠ 0
              then Line.failed s.m_numKeys
                ((((s.m_cmdList ++ [Cmd.ClearErrorCount e.id, Cmd.UAVBarrier (some e.id),
                  Cmd.Validate a.id pl.id e.id s.m_numKeys, Cmd.UAVBarrier (some e.id)]).foldl
                  (exec W s.m_sortingConfig s.k_partitionSize) s.m_device).mem e.id).getD 0 0)
              else Line.passed s.m_numKeys]
          else s.stdout }) := by
  cases s
  simp only at he ha hpl hrb
  subst he ha hpl hrb
  simp only [ValidateOutput, deref, bind, Except.bind, UAVBarrierSingle, pure, Except.pure,
    ExecuteCommandList, OneSweep.ran, ReadBackBuffer, List.foldl_append, List.foldl_cons,
    List.foldl_nil, List.append_assoc, List.singleton_append, List.nil_append, Option.map_some']
  have h4 : 1 * 4 ≤ rb.width := by omega
  simp only [h4, if_true]
  cases shouldPrint <;> simp [exec, copyWords_one_getElem]

/-- C7: `ValidateOutput` records `ClearErrorCount` on the error counter, a barrier on it,
`Validate` over the current `m_sortBuffer` and `m_sortPayloadBuffer` with element count
`m_numKeys`, and a barrier on the counter; it submits that list to the queue, then a copy
of the counter to the staging buffer, and returns, for either value of `shouldPrint`, a
normal result that is `true` exactly when the counter left in `m_errorCountBuffer` is
zero. A non-zero count is the result `false`, not a fault. The two command lists the
queue received are stated command by command, operands included. -/
theorem ValidateOutput_spec (W : World) (s : OneSweep) (shouldPrint : Bool)
    (e a pl rb : Resource)
    (he : s.m_errorCountBuffer = some e) (ha : s.m_sortBuffer = some a)
    (hpl : s.m_sortPayloadBuffer = some pl) (hrb : s.m_readBackBuffer = some rb)
    (hw : 4 ≤ rb.width) :
    ∃ d b t,
      d = (s.m_cmdList ++ [Cmd.ClearErrorCount e.id, Cmd.UAVBarrier (some e.id),
        Cmd.Validate a.id pl.id e.id s.m_numKeys, Cmd.UAVBarrier (some e.id)]).foldl
          (exec W s.m_sortingConfig s.k_partitionSize) s.m_device ∧
      ValidateOutput W s shouldPrint = .ok (b, t) ∧
      t.m_cmdQueue = s.m_cmdQueue ++
        [s.m_cmdList ++ [Cmd.ClearErrorCount e.id, Cmd.UAVBarrier (some e.id),
          Cmd.Validate a.id pl.id e.id s.m_numKeys, Cmd.UAVBarrier (some e.id)],
         [Cmd.CopyBufferRegion rb.id 0 e.id 0 4]] ∧
      t.m_cmdList = [] ∧
      t.m_device = exec W s.m_sortingConfig s.k_partitionSize d
        (Cmd.CopyBufferRegion rb.id 0 e.id 0 4) ∧
      (b = true ↔ (t.m_device.mem e.id).getD 0 0 = 0) ∧
      (t.m_device.mem e.id).getD 0 0 = (d.mem e.id).getD 0 0 ∧
      (b = false ↔ (d.mem e.id).getD 0 0 ≠ 0) := by
  refine ⟨_, _, _, rfl, ValidateOutput_eq W s shouldPrint e a pl rb he ha hpl hrb hw, ?_, rfl,
    rfl, ?_⟩
  · simp [OneSweep.ran]
  have hkeep : ((exec W s.m_sortingConfig s.k_partitionSize
      ((s.m_cmdList ++ [Cmd.ClearErrorCount e.id, Cmd.UAVBarrier (some e.id),
        Cmd.Validate a.id pl.id e.id s.m_numKeys, Cmd.UAVBarrier (some e.id)]).foldl
        (exec W s.m_sortingConfig s.k_partitionSize) s.m_device)
      (Cmd.CopyBufferRegion rb.id 0 e.id 0 4)).mem e.id).getD 0 0 =
      (((s.m_cmdList ++ [Cmd.ClearErrorCount e.id, Cmd.UAVBarrier (some e.id),
        Cmd.Validate a.id pl.id e.id s.m_numKeys, Cmd.UAVBarrier (some e.id)]).foldl
        (exec W s.m_sortingConfig s.k_partitionSize) s.m_device).mem e.id).getD 0 0 := by
    by_cases hne : e.id = rb.id
    · have h1 : 4 / 4 = 1 := rfl
      simp only [exec, hne, write_mem_self, Nat.zero_div, h1, copyWords_one_getD]
    · simp only [exec, write_mem_of_ne _ _ _ _ hne]
  simp only [OneSweep.ran, hkeep, decide_eq_true_eq, decide_eq_false_iff_not, ne_eq, and_self,
    true_and]

theorem ValidateOutput_spec_witness :
    engine2.m_errorCountBuffer = some ⟨2, 4⟩ ∧ engine2.m_sortBuffer = some ⟨4, 20⟩ ∧
      engine2.m_sortPayloadBuffer = some ⟨7, 4⟩ ∧ engine2.m_readBackBuffer = some ⟨3, 32768⟩ ∧
      (ValidateOutput world0 engine2 true).toOption.map Prod.fst = some false ∧
      (ValidateOutput world0 engine2 true).toOption.map (fun r => r.2.m_device.mem 2) =
        some [2] ∧
      ∃ d b t,
        d = (engine2.m_cmdList ++ [Cmd.ClearErrorCount 2, Cmd.UAVBarrier (some 2),
          Cmd.Validate 4 7 2 engine2.m_numKeys, Cmd.UAVBarrier (some 2)]).foldl
            (exec world0 engine2.m_sortingConfig engine2.k_partitionSize) engine2.m_device ∧
        ValidateOutput world0 engine2 true = .ok (b, t) ∧
        t.m_cmdQueue = engine2.m_cmdQueue ++
          [engine2.m_cmdList ++ [Cmd.ClearErrorCount 2, Cmd.UAVBarrier (some 2),
            Cmd.Validate 4 7 2 engine2.m_numKeys, Cmd.UAVBarrier (some 2)],
           [Cmd.CopyBufferRegion 3 0 2 0 4]] ∧
        t.m_cmdList = [] ∧
        t.m_device = exec world0 engine2.m_sortingConfig engine2.k_partitionSize d
          (Cmd.CopyBufferRegion 3 0 2 0 4) ∧
        (b = true ↔ (t.m_device.mem 2).getD 0 0 = 0) ∧
        (t.m_device.mem 2).getD 0 0 = (d.mem 2).getD 0 0 ∧
        (b = false ↔ (d.mem 2).getD 0 0 ≠ 0) :=
  ⟨by decide, by decide, by decide, by decide, by decide, by decide,
    ValidateOutput_spec world0 engine2 true ⟨2, 4⟩ ⟨4, 20⟩ ⟨7, 4⟩ ⟨3, 32768⟩
      (by decide) (by decide) (by decide) (by decide) (by decide)⟩

/-! ## States that share their buffers -/

theorem SameBuffers.refl (s : OneSweep) : SameBuffers s s :=
  ⟨rfl, rfl, rfl, rfl, rfl, rfl, rfl, rfl, rfl, rfl, rfl, rfl, rfl, rfl, rfl, rfl, rfl⟩

theorem SameBuffers.trans {s t u : OneSweep} (h1 : SameBuffers s t) (h2 : SameBuffers t u) :
    SameBuffers s u :=
  ⟨h2.1.trans h1.1, h2.2.trans h1.2, h2.3.trans h1.3, h2.4.trans h1.4, h2.5.trans h1.5,
    h2.6.trans h1.6, h2.7.trans h1.7, h2.8.trans h1.8, h2.9.trans h1.9, h2.10.trans h1.10,
    h2.11.trans h1.11, h2.12.trans h1.12, h2.13.trans h1.13, h2.14.trans h1.14,
    h2.15.trans h1.15, h2.16.trans h1.16, h2.17.trans h1.17⟩

theorem SameBuffers.ran (s : OneSweep) (cmds : List Cmd) (d : Device) (fence : Nat)
    (hc : d.created = s.m_device.created) (hl : d.live = s.m_device.live) :
    SameBuffers s (s.ran cmds d fence) :=
  ⟨rfl, rfl, rfl, rfl, rfl, rfl, rfl, rfl, rfl, rfl, rfl, rfl, rfl, rfl, rfl, hc, hl⟩

theorem SameBuffers.allocated {s t : OneSweep} (h : SameBuffers s t) (ha : s.Allocated) :
    t.Allocated := by
  unfold OneSweep.Allocated OneSweep.sizeBuffers at *
  rw [h.m_sortBuffer, h.m_sortPayloadBuffer, h.m_altBuffer, h.m_altPayloadBuffer,
    h.m_passHistBuffer]
  exact ha

theorem SameBuffers.inv {s t : OneSweep} (h : SameBuffers s t) (hi : s.Inv) : t.Inv := by
  unfold OneSweep.Inv OneSweep.Owned OneSweep.ids OneSweep.fixedBuffers OneSweep.sizeBuffers at *
  rw [h.m_sortBuffer, h.m_sortPayloadBuffer, h.m_altBuffer, h.m_altPayloadBuffer,
    h.m_passHistBuffer, h.m_globalHistBuffer, h.m_indexBuffer, h.m_errorCountBuffer,
    h.m_readBackBuffer, h.k_maxReadback, h.created]
  exact hi

/-- Under the invariant, an engine with allocated buffers holds nine handles to nine
different resources, and its staging buffer has `k_maxReadback` words. -/
theorem handles_of_inv (s : OneSweep) (hi : s.Inv) (ha : s.Allocated) :
    ∃ a pa b pb p g i e rb,
      s.m_sortBuffer = some a ∧ s.m_sortPayloadBuffer = some pa ∧ s.m_altBuffer = some b ∧
      s.m_altPayloadBuffer = some pb ∧ s.m_passHistBuffer = some p ∧
      s.m_globalHistBuffer = some g ∧ s.m_indexBuffer = some i ∧
      s.m_errorCountBuffer = some e ∧ s.m_readBackBuffer = some rb ∧
      [a.id, pa.id, b.id, pb.id, p.id, g.id, i.id, e.id, rb.id].Nodup ∧
      rb.width = s.k_maxReadback * 4 := by
  obtain ⟨hf, ⟨hn, _⟩, hw, _, _⟩ := hi
  unfold OneSweep.Allocated OneSweep.sizeBuffers at ha
  unfold OneSweep.fixedBuffers at hf
  unfold OneSweep.ids OneSweep.fixedBuffers OneSweep.sizeBuffers at hn
  simp only [List.mem_cons, List.mem_singleton, List.mem_nil_iff, or_false, forall_eq_or_imp,
    forall_eq, ne_eq] at ha hf
  obtain ⟨a, ha1⟩ := Option.ne_none_iff_exists'.mp ha.1
  obtain ⟨pa, ha2⟩ := Option.ne_none_iff_exists'.mp ha.2.1
  obtain ⟨b, ha3⟩ := Option.ne_none_iff_exists'.mp ha.2.2.1
  obtain ⟨pb, ha4⟩ := Option.ne_none_iff_exists'.mp ha.2.2.2.1
  obtain ⟨p, ha5⟩ := Option.ne_none_iff_exists'.mp ha.2.2.2.2
  obtain ⟨g, hf1⟩ := Option.ne_none_iff_exists'.mp hf.1
  obtain ⟨i, hf2⟩ := Option.ne_none_iff_exists'.mp hf.2.1
  obtain ⟨e, hf3⟩ := Option.ne_none_iff_exists'.mp hf.2.2.1
  obtain ⟨rb, hf4⟩ := Option.ne_none_iff_exists'.mp hf.2.2.2
  refine ⟨a, pa, b, pb, p, g, i, e, rb, ha1, ha2, ha3, ha4, ha5, hf1, hf2, hf3, hf4, ?_, ?_⟩
  · rw [ha1, ha2, ha3, ha4, ha5, hf1, hf2, hf3, hf4] at hn
    simpa [List.reduceOption] using hn
  · rw [hf4] at hw
    simpa using hw

/-! ## `UpdateSize` keeps the invariant -/

theorem UpdateSize_config (s : OneSweep) (N : Nat) :
    (UpdateSize s N).m_sortingConfig = s.m_sortingConfig ∧
      (UpdateSize s N).k_maxReadback = s.k_maxReadback ∧
      (UpdateSize s N).k_partitionSize = s.k_partitionSize ∧
      (UpdateSize s N).m_cmdList = s.m_cmdList ∧
      (UpdateSize s N).m_timestampFrequency = s.m_timestampFrequency ∧
      (UpdateSize s N).m_device.timestamps = s.m_device.timestamps ∧
      (UpdateSize s N).stdout = s.stdout ∧
      (UpdateSize s N).m_numKeys = N := by
  by_cases h : s.m_numKeys = N
  · subst h
    rw [UpdateSize_of_eq]
    simp
  · rw [UpdateSize_of_ne s N h, InitBuffers_eq, DisposeBuffers_eq]
    simp

theorem UpdateSize_allocated (s : OneSweep) (N : Nat) (h : s.m_numKeys ≠ N ∨ s.Allocated) :
    (UpdateSize s N).Allocated := by
  by_cases hn : s.m_numKeys = N
  · subst hn
    rw [UpdateSize_of_eq]
    rcases h with h | h
    · exact absurd rfl h
    · exact h
  · obtain ⟨_, _, f3, f4, f5, f6, f7, _⟩ := UpdateSize_fields s N hn
    unfold OneSweep.Allocated OneSweep.sizeBuffers
    rw [f3, f4, f5, f6, f7]
    simp

theorem UpdateSize_ids (s : OneSweep) (N : Nat) (hn : s.m_numKeys ≠ N) :
    (UpdateSize s N).ids =
      [s.m_device.created, s.m_device.created + 3, s.m_device.created + 1,
        s.m_device.created + 4, s.m_device.created + 2] ++
        s.fixedBuffers.reduceOption.map Resource.id := by
  obtain ⟨_, _, f3, f4, f5, f6, f7, f8, _⟩ := UpdateSize_fields s N hn
  unfold OneSweep.ids
  rw [f8]
  unfold OneSweep.sizeBuffers
  rw [f3, f4, f5, f6, f7, List.reduceOption_append, List.map_append]
  simp [List.reduceOption]

theorem UpdateSize_inv (s : OneSweep) (N : Nat) (hi : s.Inv) : (UpdateSize s N).Inv := by
  by_cases hn : s.m_numKeys = N
  · subst hn
    rw [UpdateSize_of_eq]
    exact hi
  · obtain ⟨hf, ⟨hnd, hlt⟩, hw, h4, h30⟩ := hi
    obtain ⟨_, _, _, _, _, _, _, f8, f9, _⟩ := UpdateSize_fields s N hn
    have hk := (UpdateSize_config s N).2.1
    have hfix : ∀ x ∈ s.fixedBuffers.reduceOption.map Resource.id, x < s.m_device.created := by
      intro x hx
      apply hlt
      unfold OneSweep.ids
      rw [List.reduceOption_append, List.map_append]
      exact List.mem_append_right _ hx
    have hfn : (s.fixedBuffers.reduceOption.map Resource.id).Nodup := by
      unfold OneSweep.ids at hnd
      rw [List.reduceOption_append, List.map_append, List.nodup_append] at hnd
      exact hnd.2.1
    have hrb : (UpdateSize s N).m_readBackBuffer = s.m_readBackBuffer := by
      have := f8
      unfold OneSweep.fixedBuffers at this
      simp only [List.cons.injEq, and_true] at this
      exact this.2.2.2
    refine ⟨?_, ⟨?_, ?_⟩, ?_, ?_, ?_⟩
    · rw [f8]; exact hf
    · rw [UpdateSize_ids s N hn, List.nodup_append]
      refine ⟨by simp, hfn, ?_⟩
      intro x hx hx'
      have := hfix x hx'
      simp only [List.mem_cons, List.mem_singleton, List.mem_nil_iff, or_false] at hx
      omega
    · intro x hx
      rw [UpdateSize_ids s N hn, List.mem_append] at hx
      rw [f9]
      rcases hx with hx | hx
      · simp only [List.mem_cons, List.mem_singleton, List.mem_nil_iff, or_false] at hx
        omega
      · have := hfix x hx
        omega
    · rw [hrb, hk]; exact hw
    · rw [hk]; exact h4
    · rw [hk]; exact h30

/-! ## `TestSort` -/

theorem mem_after_init (W : World) (cfg : GPUSortingConfig) (ps : Nat) (d : Device)
    (pending : List Cmd) (a pl numKeys seed : Nat) (hw : d.width a / 4 = numKeys) :
    ((pending ++ [Cmd.InitSortInput a pl numKeys seed, Cmd.UAVBarrier (some a)]).foldl
      (exec W cfg ps) d).mem a = testInput W seed numKeys := by
  rw [List.foldl_append]
  simp only [List.foldl_cons, List.foldl_nil, exec]
  apply store_mem_self_of_full
  rw [foldl_exec_width, testInput_length]
  exact hw

/-- Generating the input, recording the pipeline and submitting it: the three steps
succeed on an engine with allocated buffers. If the two key buffers have room for
`m_numKeys` keys and the partitions cover them, they leave the radix-sorted input in
the buffer behind `m_sortBuffer`. -/
theorem sorted_run (W : World) (t : OneSweep) (seed : Nat) (a pa b p g i : Resource)
    (ha : t.m_sortBuffer = some a) (hpa : t.m_sortPayloadBuffer = some pa)
    (hb : t.m_altBuffer = some b) (hp : t.m_passHistBuffer = some p)
    (hg : t.m_globalHistBuffer = some g) (hi : t.m_indexBuffer = some i)
    (hag : a.id ≠ g.id) (hap : a.id ≠ p.id) (hai : a.id ≠ i.id) :
    ∃ t1 t2, CreateTestInput W t seed = .ok t1 ∧ PrepareSortCmdList t1 = .ok t2 ∧
      SameBuffers t (ExecuteCommandList W t2) ∧
      (ExecuteCommandList W t2).m_cmdList = [] ∧
      (ExecuteCommandList W t2).stdout = t.stdout ∧
      (t.m_device.width a.id / 4 = t.m_numKeys → t.m_device.width b.id / 4 = t.m_numKeys →
        t.m_numKeys ≤ t.m_partitions * t.k_partitionSize →
        (ExecuteCommandList W t2).m_device.mem a.id =
          radixSort t.m_sortingConfig (testInput W seed t.m_numKeys)) ∧
      (t.m_device.width a.id / 4 = 0 → (ExecuteCommandList W t2).m_device.mem a.id = []) := by
  refine ⟨_, _, CreateTestInput_eq W t seed a pa ha hpa,
    PrepareSortCmdList_eq _ a b p g i ha hb hp hg hi, ?_, rfl, rfl, ?_, ?_⟩
  · refine ⟨rfl, rfl, rfl, rfl, rfl, rfl, rfl, rfl, rfl, rfl, rfl, rfl, rfl, rfl, rfl, ?_, ?_⟩
    · exact ((foldl_exec_frame _ _ _ _ _).1.trans (foldl_exec_frame _ _ _ _ _).1)
    · exact ((foldl_exec_frame _ _ _ _ _).2.trans (foldl_exec_frame _ _ _ _ _).2)
  · intro hwa hwb hcov
    have hm := mem_after_init W t.m_sortingConfig t.k_partitionSize t.m_device t.m_cmdList
      a.id pa.id t.m_numKeys seed hwa
    simp only [ExecuteCommandList_eq, OneSweep.ran, List.nil_append]
    rw [sortCmds_mem W _ _ _ _ _ _ _ _ _ _ _ _ hag hap hai
      (by rw [hm, testInput_length]) (by rw [foldl_exec_width]; exact hwa)
      (by rw [foldl_exec_width]; exact hwb) hcov, hm]
  · intro hwa
    simp only [ExecuteCommandList_eq, OneSweep.ran, List.nil_append]
    exact sortCmds_mem_zero W _ _ _ _ _ _ _ _ _ _ _ _ (by rw [foldl_exec_width]; exact hwa)

theorem monotonic_take (cfg : GPUSortingConfig) (keys : List Nat) (n : Nat)
    (h : Monotonic cfg keys) : Monotonic cfg (keys.take n) :=
  List.Pairwise.sublist (List.take_sublist n keys) h

/-- Validation succeeds whatever it counts and leaves the keys alone; of a buffer that
is in order the result is `true` and the counter is 0. -/
theorem validate_run (W : World) (u : OneSweep) (shouldPrint : Bool) (e a pl rb : Resource)
    (he : u.m_errorCountBuffer = some e) (ha : u.m_sortBuffer = some a)
    (hpl : u.m_sortPayloadBuffer = some pl) (hrb : u.m_readBackBuffer = some rb)
    (hw : 4 ≤ rb.width) (hidle : u.m_cmdList = [])
    (hae : a.id ≠ e.id) (har : a.id ≠ rb.id) (her : e.id ≠ rb.id) :
    ∃ r u', ValidateOutput W u shouldPrint = .ok (r, u') ∧ SameBuffers u u' ∧
      u'.m_cmdList = [] ∧ u'.m_device.mem a.id = u.m_device.mem a.id ∧
      (Monotonic u.m_sortingConfig (u.m_device.mem a.id) →
        r = true ∧ (u'.m_device.mem e.id).getD 0 0 = 0) := by
  refine ⟨_, _, ValidateOutput_eq W u shouldPrint e a pl rb he ha hpl hrb hw, ?_, rfl, ?_, ?_⟩
  · refine ⟨rfl, rfl, rfl, rfl, rfl, rfl, rfl, rfl, rfl, rfl, rfl, rfl, rfl, rfl, rfl, ?_, ?_⟩
    · exact (exec_created _ _ _ _ _).trans (foldl_exec_frame _ _ _ _ _).1
    · exact (exec_live _ _ _ _ _).trans (foldl_exec_frame _ _ _ _ _).2
  · simp only [OneSweep.ran, hidle, List.nil_append, List.foldl_cons, List.foldl_nil, exec,
      write_mem_of_ne _ _ _ _ har, store_mem_of_ne _ _ _ _ hae]
  · intro hmono
    have hcount : countErrors u.m_sortingConfig
        ((u.m_device.mem a.id).take u.m_numKeys) = 0 :=
      countErrors_eq_zero _ _ (monotonic_take _ _ _ hmono)
    have hd : (((u.m_cmdList ++ [Cmd.ClearErrorCount e.id, Cmd.UAVBarrier (some e.id),
        Cmd.Validate a.id pl.id e.id u.m_numKeys, Cmd.UAVBarrier (some e.id)]).foldl
        (exec W u.m_sortingConfig u.k_partitionSize) u.m_device).mem e.id).getD 0 0 = 0 := by
      rw [hidle, List.nil_append, validateCmds_foldl, store_word_getD, store_word_getD,
        store_mem_of_ne _ _ _ _ hae, hcount]
      simp
    refine ⟨?_, ?_⟩
    · rw [hd]; rfl
    · simp only [OneSweep.ran, exec, write_mem_of_ne _ _ _ _ her]
      exact hd

/-- The readback of `TestSort` asks `ReadBackBuffer` for `m_numKeys` words; once that
exceeds the `k_maxReadback` words of the staging buffer the read runs past its end. -/
theorem readBackAndPrint_overrun (W : World) (u : OneSweep) (a rb : Resource)
    (ha : u.m_sortBuffer = some a) (hrb : u.m_readBackBuffer = some rb)
    (hw : rb.width = u.k_maxReadback * 4) (hlt : u.k_maxReadback < u.m_numKeys) :
    readBackAndPrint W u = .error (.readPastEnd (u.m_numKeys * 4) (u.k_maxReadback * 4)) := by
  have hnot : ¬ (u.m_numKeys * 4 ≤ u.k_maxReadback * 4) := by omega
  simp only [readBackAndPrint, deref, ha, hrb, bind, Except.bind, ExecuteCommandList,
    ReadBackBuffer, hw, hnot, if_false]

/-- The readback of `TestSort` within the capacity of the staging buffer: it succeeds
and writes to no buffer but the staging buffer. -/
theorem readBackAndPrint_ok (W : World) (u : OneSweep) (a pl rb : Resource)
    (ha : u.m_sortBuffer = some a) (hpl : u.m_sortPayloadBuffer = some pl)
    (hrb : u.m_readBackBuffer = some rb)
    (hw : rb.width = u.k_maxReadback * 4) (hle : u.m_numKeys ≤ u.k_maxReadback)
    (hidle : u.m_cmdList = []) :
    ∃ u', readBackAndPrint W u = .ok u' ∧ SameBuffers u u' ∧ u'.m_cmdList = [] ∧
      ∀ j, j ≠ rb.id → u'.m_device.mem j = u.m_device.mem j := by
  have hfit : u.m_numKeys * 4 ≤ u.k_maxReadback * 4 := by omega
  simp only [readBackAndPrint, deref, ha, hpl, hrb, hidle, bind, Except.bind, ExecuteCommandList,
    ReadBackBuffer, hw, hfit, if_true, pure, Except.pure, List.nil_append, List.foldl_cons,
    List.foldl_nil]
  split
  · refine ⟨_, rfl, ?_, rfl, ?_⟩
    · constructor <;> first | rfl | exact ha.symm | exact hpl.symm | exact hrb.symm
    · intro j hj
      simp only [exec, write_mem_of_ne _ _ _ _ hj]
  · refine ⟨_, rfl, ?_, rfl, ?_⟩
    · constructor <;> first | rfl | exact ha.symm | exact hpl.symm | exact hrb.symm
    · intro j hj
      simp only [exec, write_mem_of_ne _ _ _ _ hj]


/-- The facts about the nine buffers that the runs below rely on. -/
theorem buffers_of_inv (s : OneSweep) (hi : s.Inv) (hal : s.Allocated) :
    ∃ a pa b pb p g i e rb,
      s.m_sortBuffer = some a ∧ s.m_sortPayloadBuffer = some pa ∧ s.m_altBuffer = some b ∧
      s.m_altPayloadBuffer = some pb ∧ s.m_passHistBuffer = some p ∧
      s.m_globalHistBuffer = some g ∧ s.m_indexBuffer = some i ∧
      s.m_errorCountBuffer = some e ∧ s.m_readBackBuffer = some rb ∧
      a.id ≠ g.id ∧ a.id ≠ p.id ∧ a.id ≠ i.id ∧ a.id ≠ e.id ∧ a.id ≠ rb.id ∧ e.id ≠ rb.id ∧
      rb.width = s.k_maxReadback * 4 ∧ 16 ≤ rb.width := by
  obtain ⟨a, pa, b, pb, p, g, i, e, rb, ha, hpa, hb, hpb, hp, hg, hi', he, hrb, hnd, hw⟩ :=
    handles_of_inv s hi hal
  have h4 : 4 ≤ s.k_maxReadback := hi.2.2.2.1
  simp only [List.nodup_cons, List.mem_cons, List.mem_singleton, List.mem_nil_iff, or_false,
    not_or, List.not_mem_nil, not_false_eq_true, List.nodup_nil, and_true] at hnd
  obtain ⟨⟨-, -, -, hap, hag, hai, hae, har⟩, -, -, -, -, -, -, her⟩ := hnd
  refine ⟨a, pa, b, pb, p, g, i, e, rb, ha, hpa, hb, hpb, hp, hg, hi', he, hrb,
    hag, hap, hai, hae, har, her, hw, ?_⟩
  rw [hw]
  exact Nat.mul_le_mul_right 4 h4

/-- `TestSort` up to its readback: on an engine that satisfies the invariant and has, or
gets, its buffers, the sort (and the validation, if asked for) succeeds and ends in a
state `u`; the readback, if asked for, then runs from `u`. If the two key buffers have
room for N keys and the partitions cover them, the sort buffer of `u` holds the
radix-sorted input; if the sort buffer has fewer than four bytes, it holds no key. -/
theorem TestSort_run (W : World) (s : OneSweep) (N seed : Nat) (shouldValidate : Bool)
    (hinv : s.Inv) (halloc : s.m_numKeys ≠ N ∨ s.Allocated) :
    ∃ u a b pl e rb,
      (∀ shouldReadBack, TestSort W s N seed shouldReadBack shouldValidate =
        if shouldReadBack = true then readBackAndPrint W u else .ok u) ∧
      SameBuffers (UpdateSize s N) u ∧ u.m_cmdList = [] ∧
      u.m_sortBuffer = some a ∧ u.m_altBuffer = some b ∧ u.m_sortPayloadBuffer = some pl ∧
      u.m_errorCountBuffer = some e ∧ u.m_readBackBuffer = some rb ∧
      a.id ≠ rb.id ∧ e.id ≠ rb.id ∧ rb.width = s.k_maxReadback * 4 ∧
      ((UpdateSize s N).m_device.width a.id / 4 = N →
        (UpdateSize s N).m_device.width b.id / 4 = N →
        N ≤ (UpdateSize s N).m_partitions * s.k_partitionSize →
        u.m_device.mem a.id = radixSort s.m_sortingConfig (testInput W seed N) ∧
        (shouldValidate = true → (u.m_device.mem e.id).getD 0 0 = 0)) ∧
      ((UpdateSize s N).m_device.width a.id / 4 = 0 → u.m_device.mem a.id = []) := by
  have hti := UpdateSize_inv s N hinv
  have hta := UpdateSize_allocated s N halloc
  obtain ⟨hcfg, hk, hps, _, _, _, _, hN⟩ := UpdateSize_config s N
  obtain ⟨a, pa, b, pb, p, g, i, e, rb, ha, hpa, hb, hpb, hp, hg, hi, he, hrb,
    hag, hap, hai, hae, har, her, hw, h16⟩ := buffers_of_inv _ hti hta
  have h4 : 4 ≤ rb.width := Nat.le_trans (by decide) h16
  obtain ⟨t1, t2, h1, h2, hsame, hidle, _, hmem, hzero⟩ :=
    sorted_run W (UpdateSize s N) seed a pa b p g i ha hpa hb hp hg hi hag hap hai
  rw [hcfg, hN, hps] at hmem
  rw [hk] at hw
  have hua : (ExecuteCommandList W t2).m_sortBuffer = some a := hsame.m_sortBuffer.trans ha
  have hub : (ExecuteCommandList W t2).m_altBuffer = some b := hsame.m_altBuffer.trans hb
  have hupl : (ExecuteCommandList W t2).m_sortPayloadBuffer = some pa :=
    hsame.m_sortPayloadBuffer.trans hpa
  have hue : (ExecuteCommandList W t2).m_errorCountBuffer = some e :=
    hsame.m_errorCountBuffer.trans he
  have hurb : (ExecuteCommandList W t2).m_readBackBuffer = some rb :=
    hsame.m_readBackBuffer.trans hrb
  cases shouldValidate with
  | false =>
    refine ⟨ExecuteCommandList W t2, a, b, pa, e, rb, ?_, hsame, hidle, hua, hub, hupl, hue,
      hurb, har, her, hw, fun h1 h2 h3 => ⟨hmem h1 h2 h3, fun h => absurd h (by decide)⟩,
      hzero⟩
    intro shouldReadBack
    unfold TestSort
    simp only [h1, h2, bind, Except.bind, pure, Except.pure, Bool.false_eq_true, if_false]
  | true =>
    obtain ⟨r, u, hv, hsame', hidle', hmem', herr⟩ :=
      validate_run W (ExecuteCommandList W t2) true e a pa rb hue hua hupl hurb h4 hidle
        hae har her
    refine ⟨u, a, b, pa, e, rb, ?_, hsame.trans hsame', hidle', hsame'.m_sortBuffer.trans hua,
      hsame'.m_altBuffer.trans hub,
      hsame'.m_sortPayloadBuffer.trans hupl, hsame'.m_errorCountBuffer.trans hue,
      hsame'.m_readBackBuffer.trans hurb, har, her, hw, ?_, fun h => hmem'.trans (hzero h)⟩
    · intro shouldReadBack
      unfold TestSort
      simp only [h1, h2, hv, bind, Except.bind, pure, Except.pure, if_true, Functor.map,
        Except.map]
    · intro h1 h2 h3
      have hm := hmem h1 h2 h3
      have hmono : Monotonic (ExecuteCommandList W t2).m_sortingConfig
          ((ExecuteCommandList W t2).m_device.mem a.id) := by
        rw [hsame.m_sortingConfig, hcfg, hm]
        exact radixSort_monotonic _ _ (testInput_lt W seed N)
      exact ⟨hmem'.trans hm, fun _ => (herr hmono).2⟩

/-- Within the range of the 32-bit arithmetic of `UpdateSize` the orchestration sorts:
on an engine that satisfies the class invariant, for a new element count N below 2^30
with N + `k_partitionSize` at most 2^32, `TestSort` succeeds, for every generated
input, and afterwards the buffer behind `m_sortBuffer` holds the four digit passes
(shifts 0, 8, 16, 24) of the input: a permutation of the input that is monotonic per
the configured order of the configured key type, in which `Validate` counts 0 errors;
if validation was requested the error counter reads 0. A readback, if requested, must
fit the staging buffer. -/
theorem TestSort_sorts_in_range (W : World) (s : OneSweep) (N seed : Nat)
    (shouldReadBack shouldValidate : Bool) (hinv : s.Inv)
    (hne : s.m_numKeys ≠ N) (h30 : N < 2 ^ 30) (hps : 0 < s.k_partitionSize)
    (hfit : N + s.k_partitionSize ≤ 2 ^ 32)
    (hcap : shouldReadBack = true → N ≤ s.k_maxReadback) :
    ∃ t a, TestSort W s N seed shouldReadBack shouldValidate = .ok t ∧
      t.m_sortBuffer = some a ∧ t.m_sortBuffer = (UpdateSize s N).m_sortBuffer ∧
      t.m_device.mem a.id = radixSort s.m_sortingConfig (testInput W seed N) ∧
      (t.m_device.mem a.id).Perm (testInput W seed N) ∧
      Monotonic s.m_sortingConfig (t.m_device.mem a.id) ∧
      countErrors s.m_sortingConfig ((t.m_device.mem a.id).take N) = 0 ∧
      (shouldValidate = true →
        ∃ e, t.m_errorCountBuffer = some e ∧ (t.m_device.mem e.id).getD 0 0 = 0) := by
  obtain ⟨u, a, b, pl, e, rb, hrun, hsame, hidle, hua, hub, hupl, hue, hurb, har, her, hw,
    hsorted, _⟩ := TestSort_run W s N seed shouldValidate hinv (Or.inl hne)
  obtain ⟨_, hk, _, _, _, _, _, hN⟩ := UpdateSize_config s N
  obtain ⟨_, _, f3, f4, _⟩ := UpdateSize_fields s N hne
  obtain ⟨w0, w1, _⟩ := UpdateSize_width s N hne
  have ea : a = ⟨s.m_device.created, N * 4 % 2 ^ 32⟩ :=
    Option.some.inj ((hua.symm.trans hsame.m_sortBuffer).trans f3)
  have eb : b = ⟨s.m_device.created + 1, N * 4 % 2 ^ 32⟩ :=
    Option.some.inj ((hub.symm.trans hsame.m_altBuffer).trans f4)
  have hq : N * 4 % 2 ^ 32 / 4 = N := by omega
  have hcov : N ≤ (UpdateSize s N).m_partitions * s.k_partitionSize := by
    rw [UpdateSize_partitions_of_no_wrap s N hps hfit hne]
    exact (ceilDiv_le_iff N s.k_partitionSize _ hps).mp (Nat.le_refl _)
  obtain ⟨hmem, herr⟩ := hsorted (by rw [ea, w0]; exact hq) (by rw [eb, w1]; exact hq) hcov
  have hfacts : ∀ l, l = radixSort s.m_sortingConfig (testInput W seed N) →
      l.Perm (testInput W seed N) ∧ Monotonic s.m_sortingConfig l ∧
      countErrors s.m_sortingConfig (l.take N) = 0 := by
    intro l hl
    subst hl
    have hm := radixSort_monotonic s.m_sortingConfig _ (testInput_lt W seed N)
    exact ⟨radixSort_perm _ _, hm, countErrors_eq_zero _ _ (monotonic_take _ _ _ hm)⟩
  cases shouldReadBack with
  | false =>
    have h := hrun false
    simp only [Bool.false_eq_true, if_false] at h
    obtain ⟨f1, f2, f3⟩ := hfacts _ hmem
    exact ⟨u, a, h, hua, hsame.m_sortBuffer, hmem, f1, f2, f3, fun hv => ⟨e, hue, herr hv⟩⟩
  | true =>
    have h := hrun true
    simp only [if_true] at h
    have hle : u.m_numKeys ≤ u.k_maxReadback := by
      rw [hsame.m_numKeys, hsame.k_maxReadback, hN, hk]
      exact hcap rfl
    have hw' : rb.width = u.k_maxReadback * 4 := by
      rw [hsame.k_maxReadback, hk]; exact hw
    obtain ⟨u', hok, hsame', _, hframe⟩ :=
      readBackAndPrint_ok W u a pl rb hua hupl hurb hw' hle hidle
    have hmem' : u'.m_device.mem a.id =
        radixSort s.m_sortingConfig (testInput W seed N) :=
      (hframe _ har).trans hmem
    obtain ⟨f1, f2, f3⟩ := hfacts _ hmem'
    refine ⟨u', a, h.trans hok, hsame'.m_sortBuffer.trans hua,
      hsame'.m_sortBuffer.trans hsame.m_sortBuffer, hmem', f1, f2, f3,
      fun hv => ⟨e, hsame'.m_errorCountBuffer.trans hue, ?_⟩⟩
    rw [hframe _ her]
    exact herr hv

/-- The in-range sort on the sample engine, five keys, with validation and readback. -/
theorem TestSort_sorts_in_range_sample :
    ∃ t a, TestSort world0 engine0 5 42 true true = .ok t ∧
      t.m_sortBuffer = some a ∧ t.m_sortBuffer = (UpdateSize engine0 5).m_sortBuffer ∧
      t.m_device.mem a.id = radixSort engine0.m_sortingConfig (testInput world0 42 5) ∧
      (t.m_device.mem a.id).Perm (testInput world0 42 5) ∧
      Monotonic engine0.m_sortingConfig (t.m_device.mem a.id) ∧
      countErrors engine0.m_sortingConfig ((t.m_device.mem a.id).take 5) = 0 ∧
      (true = true →
        ∃ e, t.m_errorCountBuffer = some e ∧ (t.m_device.mem e.id).getD 0 0 = 0) :=
  TestSort_sorts_in_range world0 engine0 5 42 true true (by decide) (by decide) (by decide)
    (by decide) (by decide) (by decide)

/-- At N = 2^30 the byte size N * 4 of the key buffers wraps to 0 in `uint32_t`:
`TestSort` runs to its end, and the buffer behind `m_sortBuffer`, which holds no key at
all, is not a permutation of the 2^30 generated keys. -/
theorem TestSort_truncated (W : World) (s : OneSweep) (seed : Nat) (shouldValidate : Bool)
    (hinv : s.Inv) (hne : s.m_numKeys ≠ 2 ^ 30) :
    ∃ t a, TestSort W s (2 ^ 30) seed false shouldValidate = .ok t ∧
      t.m_sortBuffer = some a ∧ a.width = 0 ∧ t.m_device.mem a.id = [] ∧
      (testInput W seed (2 ^ 30)).length = 2 ^ 30 ∧
      ¬ (t.m_device.mem a.id).Perm (testInput W seed (2 ^ 30)) := by
  obtain ⟨u, a, b, pl, e, rb, hrun, hsame, _, hua, _, _, _, _, _, _, _, _, hzero⟩ :=
    TestSort_run W s (2 ^ 30) seed shouldValidate hinv (Or.inl hne)
  obtain ⟨_, _, f3, _⟩ := UpdateSize_fields s (2 ^ 30) hne
  obtain ⟨w0, _, _⟩ := UpdateSize_width s (2 ^ 30) hne
  have ea : a = ⟨s.m_device.created, 2 ^ 30 * 4 % 2 ^ 32⟩ :=
    Option.some.inj ((hua.symm.trans hsame.m_sortBuffer).trans f3)
  have hmem : u.m_device.mem a.id = [] := hzero (by rw [ea, w0]; rfl)
  have h := hrun false
  simp only [Bool.false_eq_true, if_false] at h
  refine ⟨u, a, h, hua, by rw [ea]; rfl, hmem, testInput_length W seed _, ?_⟩
  intro hp
  have hl := hp.length_eq
  rw [hmem, testInput_length] at hl
  exact absurd hl (by decide)

/-- C4, the code at the failing input: with `shouldReadBack` set and more than
`k_maxReadback` elements, `TestSort` copies only `k_maxReadback` keys to the staging
buffer but then asks `ReadBackBuffer` for all `m_numKeys` = N words, so the read runs
past the `k_maxReadback * 4` bytes of the staging buffer. -/
theorem TestSort_readback_overrun (W : World) (s : OneSweep) (N seed : Nat)
    (shouldValidate : Bool) (hinv : s.Inv) (halloc : s.m_numKeys ≠ N ∨ s.Allocated)
    (hlt : s.k_maxReadback < N) :
    TestSort W s N seed true shouldValidate =
      .error (.readPastEnd (N * 4) (s.k_maxReadback * 4)) := by
  obtain ⟨u, a, b, pl, e, rb, hrun, hsame, _, hua, _, _, _, hurb, _, _, hw, _, _⟩ :=
    TestSort_run W s N seed shouldValidate hinv halloc
  obtain ⟨_, hk, _, _, _, _, _, hN⟩ := UpdateSize_config s N
  have h := hrun true
  simp only [if_true] at h
  have hn : u.m_numKeys = N := hsame.m_numKeys.trans hN
  have hk' : u.k_maxReadback = s.k_maxReadback := hsame.k_maxReadback.trans hk
  rw [h, readBackAndPrint_overrun W u a rb hua hurb (by rw [hk']; exact hw)
    (by rw [hn, hk']; exact hlt), hn, hk']

theorem TestSort_readback_overrun_witness :
    engine0.Inv ∧ (engine0.m_numKeys ≠ 8193 ∨ engine0.Allocated) ∧
      engine0.k_maxReadback < 8193 ∧
      TestSort world0 engine0 8193 42 true true =
        .error (.readPastEnd (8193 * 4) (engine0.k_maxReadback * 4)) :=
  ⟨by decide, by decide, by decide,
    TestSort_readback_overrun world0 engine0 8193 42 true (by decide) (by decide) (by decide)⟩

/-! ## `TimeSort` and `BatchTiming` -/

theorem endQuery_queryHeap_self (W : World) (cfg : GPUSortingConfig) (ps : Nat) (d : Device) (i : Nat) :
    (exec W cfg ps d (Cmd.EndQuery i)).queryHeap i = W.clock d.timestamps % 2 ^ 64 := by
  simp [exec]

theorem endQuery_queryHeap_of_ne (W : World) (cfg : GPUSortingConfig) (ps : Nat) (d : Device) (i j : Nat)
    (h : j ≠ i) : (exec W cfg ps d (Cmd.EndQuery i)).queryHeap j = d.queryHeap j := by
  simp [exec, h]

theorem endQuery_timestamps (W : World) (cfg : GPUSortingConfig) (ps : Nat) (d : Device) (i : Nat) :
    (exec W cfg ps d (Cmd.EndQuery i)).timestamps = d.timestamps + 1 := rfl

theorem resolve_timestamps (W : World) (cfg : GPUSortingConfig) (ps : Nat) (d : Device)
    (startIndex numQueries dst dstOffset : Nat) :
    (exec W cfg ps d (Cmd.ResolveQueryData startIndex numQueries dst dstOffset)).timestamps =
      d.timestamps := rfl

/-- The timed submission takes two timestamps, one before and one after the pipeline. -/
theorem timed_device (W : World) (cfg : GPUSortingConfig) (ps : Nat) (d : Device) (cmds : List Cmd)
    (hq : ∀ d', (cmds.foldl (exec W cfg ps) d').queryHeap = d'.queryHeap)
    (ht : ∀ d', (cmds.foldl (exec W cfg ps) d').timestamps = d'.timestamps) :
    (([Cmd.EndQuery 0] ++ cmds ++ [Cmd.EndQuery 1]).foldl (exec W cfg ps) d).queryHeap 0 =
        W.clock d.timestamps % 2 ^ 64 ∧
      (([Cmd.EndQuery 0] ++ cmds ++ [Cmd.EndQuery 1]).foldl (exec W cfg ps) d).queryHeap 1 =
        W.clock (d.timestamps + 1) % 2 ^ 64 ∧
      (([Cmd.EndQuery 0] ++ cmds ++ [Cmd.EndQuery 1]).foldl (exec W cfg ps) d).timestamps =
        d.timestamps + 2 := by
  simp only [List.foldl_append, List.foldl_cons, List.foldl_nil]
  refine ⟨?_, ?_, ?_⟩
  · rw [endQuery_queryHeap_of_ne _ _ _ _ _ _ (by decide), hq, endQuery_queryHeap_self]
  · rw [endQuery_queryHeap_self, ht, endQuery_timestamps]
  · rw [endQuery_timestamps, ht, endQuery_timestamps]

/-- Resolving the two queries into the staging buffer and reading them back returns them. -/
theorem resolve_readback (W : World) (cfg : GPUSortingConfig) (ps : Nat) (d : Device) (rb : Resource)
    (h16 : 16 ≤ rb.width) :
    ReadBackTiming (exec W cfg ps d (Cmd.ResolveQueryData 0 2 rb.id 0)) (some rb) =
      .ok [d.queryHeap 0, d.queryHeap 1] := by
  have h16' : 2 * 8 ≤ rb.width := h16
  simp only [ReadBackTiming, h16', if_true, exec, write_mem_self, overwrite, queryWords]
  simp [List.range_succ, Nat.mod_add_div]

/-- `TimeSort` on an engine with allocated buffers and nothing pending: it succeeds, its
sample is the tick difference of the next two timestamps of the device, and it leaves
the engine with the same buffers and nothing pending. -/
theorem TimeSort_eq {τ : Type} (R : Real64 τ) (W : World) (t : OneSweep) (seed : Nat)
    (a pa b p g i rb : Resource)
    (ha : t.m_sortBuffer = some a) (hpa : t.m_sortPayloadBuffer = some pa)
    (hb : t.m_altBuffer = some b) (hp : t.m_passHistBuffer = some p)
    (hg : t.m_globalHistBuffer = some g) (hi : t.m_indexBuffer = some i)
    (hrb : t.m_readBackBuffer = some rb) (h16 : 16 ≤ rb.width) (hidle : t.m_cmdList = []) :
    ∃ t', TimeSort R W t seed =
        .ok (R.seconds (elapsed W t.m_device.timestamps) t.m_timestampFrequency, t') ∧
      SameBuffers t t' ∧ t'.m_cmdList = [] ∧ t'.stdout = t.stdout ∧
      t'.m_device.timestamps = t.m_device.timestamps + 2 := by
  have h1 := CreateTestInput_eq W t seed a pa ha hpa
  have h2 := PrepareSortCmdList_eq
    { (t.ran (t.m_cmdList ++ [Cmd.InitSortInput a.id pa.id t.m_numKeys seed,
          Cmd.UAVBarrier (some a.id)])
        ((t.m_cmdList ++ [Cmd.InitSortInput a.id pa.id t.m_numKeys seed,
          Cmd.UAVBarrier (some a.id)]).foldl (exec W t.m_sortingConfig t.k_partitionSize)
            t.m_device)
        ((t.m_nextFenceValue + 1) % 2 ^ 64)) with m_cmdList := [] ++ [Cmd.EndQuery 0] }
    a b p g i ha hb hp hg hi
  obtain ⟨q0, q1, q2⟩ := timed_device W t.m_sortingConfig t.k_partitionSize
    ((t.m_cmdList ++ [Cmd.InitSortInput a.id pa.id t.m_numKeys seed,
      Cmd.UAVBarrier (some a.id)]).foldl (exec W t.m_sortingConfig t.k_partitionSize) t.m_device)
    (sortCmds a.id b.id (t.m_sortPayloadBuffer.map Resource.id)
      (t.m_altPayloadBuffer.map Resource.id) p.id g.id i.id t.m_numKeys t.m_partitions)
    (fun d' => (sortCmds_query W _ _ d' _ _ _ _ _ _ _ _ _).1)
    (fun d' => (sortCmds_query W _ _ d' _ _ _ _ _ _ _ _ _).2)
  have hts : ((t.m_cmdList ++ [Cmd.InitSortInput a.id pa.id t.m_numKeys seed,
      Cmd.UAVBarrier (some a.id)]).foldl (exec W t.m_sortingConfig t.k_partitionSize) t.m_device).timestamps =
      t.m_device.timestamps := by
    rw [hidle]; rfl
  rw [hts] at q0 q1 q2
  unfold TimeSort
  simp only [h1, bind, Except.bind, OneSweep.ran, List.nil_append] at h2 ⊢
  rw [h2]
  simp only [ExecuteCommandList, deref, hrb, List.foldl_append, List.foldl_cons, List.foldl_nil]
  simp only [List.foldl_append, List.foldl_cons, List.foldl_nil] at q0 q1 q2
  rw [resolve_readback W _ _ _ rb h16]
  simp only [pure, Except.pure, List.getD_cons_zero, List.getD_cons_succ, q0, q1]
  refine ⟨_, rfl, ?_, rfl, rfl, ?_⟩
  · constructor
    case created =>
      show (exec W t.m_sortingConfig t.k_partitionSize _ _).created = _
      rw [exec_created, exec_created, (foldl_exec_frame W _ _ _ _).1, exec_created, exec_created,
        exec_created, (foldl_exec_frame W _ _ _ _).1]
    case live =>
      show (exec W t.m_sortingConfig t.k_partitionSize _ _).live = _
      rw [exec_live, exec_live, (foldl_exec_frame W _ _ _ _).2, exec_live, exec_live,
        exec_live, (foldl_exec_frame W _ _ _ _).2]
    all_goals first | rfl | exact hrb.symm
  · show (exec W t.m_sortingConfig t.k_partitionSize _ (Cmd.ResolveQueryData 0 2 rb.id 0)).timestamps = _
    rw [resolve_timestamps]
    exact q2

theorem SameBuffers.print (s : OneSweep) (out : List Line) :
    SameBuffers s { s with stdout := out } :=
  ⟨rfl, rfl, rfl, rfl, rfl, rfl, rfl, rfl, rfl, rfl, rfl, rfl, rfl, rfl, rfl, rfl, rfl⟩

/-- One timed sort on an engine that satisfies the invariant, has its buffers and has
nothing pending; the three properties carry over to the state it leaves. -/
theorem TimeSort_step {τ : Type} (R : Real64 τ) (W : World) (t : OneSweep) (seed : Nat)
    (hinv : t.Inv) (hal : t.Allocated) (hidle : t.m_cmdList = []) :
    ∃ t', TimeSort R W t seed =
        .ok (R.seconds (elapsed W t.m_device.timestamps) t.m_timestampFrequency, t') ∧
      t'.Inv ∧ t'.Allocated ∧ t'.m_cmdList = [] ∧
      t'.m_timestampFrequency = t.m_timestampFrequency ∧
      t'.m_device.timestamps = t.m_device.timestamps + 2 := by
  obtain ⟨a, pa, b, pb, p, g, i, e, rb, ha, hpa, hb, hpb, hp, hg, hi, he, hrb,
    _, _, _, _, _, _, _, h16⟩ := buffers_of_inv t hinv hal
  obtain ⟨t', h, hsame, hidle', _, hts⟩ :=
    TimeSort_eq R W t seed a pa b p g i rb ha hpa hb hp hg hi hrb h16 hidle
  exact ⟨t', h, hsame.inv hinv, hsame.allocated hal, hidle', hsame.m_timestampFrequency, hts⟩

theorem timingLoop_succ {τ : Type} (R : Real64 τ) (W : World) (batchSize fuel i : Nat)
    (totalTime : τ) (s : OneSweep) :
    timingLoop R W batchSize (fuel + 1) i totalTime s =
      if i ≤ batchSize then
        TimeSort R W s ((i + 10) % 2 ^ 32) >>= fun r =>
          timingLoop R W batchSize fuel ((i + 1) % 2 ^ 32)
            (if i ≠ 0 then R.add totalTime r.1 else totalTime)
            (if i % 8 = 0 then { r.2 with stdout := r.2.stdout ++ [Line.dot] } else r.2)
      else .ok (totalTime, s) := by
  rfl

/-- The state that the loop hands to its next iteration. -/
theorem timingLoop_next (t1 : OneSweep) (i : Nat) (hinv : t1.Inv) (hal : t1.Allocated)
    (hidle : t1.m_cmdList = []) :
    (if i % 8 = 0 then { t1 with stdout := t1.stdout ++ [Line.dot] } else t1).Inv ∧
      (if i % 8 = 0 then { t1 with stdout := t1.stdout ++ [Line.dot] } else t1).Allocated ∧
      (if i % 8 = 0 then { t1 with stdout := t1.stdout ++ [Line.dot] } else t1).m_cmdList = [] ∧
      (if i % 8 = 0 then { t1 with stdout := t1.stdout ++ [Line.dot] }
        else t1).m_timestampFrequency = t1.m_timestampFrequency ∧
      (if i % 8 = 0 then { t1 with stdout := t1.stdout ++ [Line.dot] }
        else t1).m_device.timestamps = t1.m_device.timestamps := by
  split
  · exact ⟨(SameBuffers.print t1 _).inv hinv, (SameBuffers.print t1 _).allocated hal, hidle,
      rfl, rfl⟩
  · exact ⟨hinv, hal, hidle, rfl, rfl⟩

/-- The samples that the loop adds to `totalTime` when it runs iterations `i`, ..., `i+n-1`
up to `batchSize`: that of every iteration but iteration 0, where iteration `j` is timed
by the timestamps `ts + 2 * j` and `ts + 2 * j + 1` of the device. The loop ends once
it is given more fuel than it has iterations left. -/
theorem timingLoop_total {τ : Type} (R : Real64 τ) (W : World) (batchSize ts freq : Nat)
    (hM : batchSize + 1 < 2 ^ 32) (n : Nat) :
    ∀ (extra i : Nat) (totalTime : τ) (t : OneSweep), i + n = batchSize + 1 →
      t.Inv → t.Allocated → t.m_cmdList = [] → t.m_timestampFrequency = freq →
      t.m_device.timestamps = ts + 2 * i →
      ∃ t', timingLoop R W batchSize (extra + n + 1) i totalTime t =
          .ok ((List.range' i n).foldl (fun acc j =>
              if j ≠ 0 then R.add acc (R.seconds (elapsed W (ts + 2 * j)) freq) else acc)
            totalTime, t') ∧
        t'.m_device.timestamps = ts + 2 * (i + n) := by
  induction n with
  | zero =>
    intro extra i totalTime t hi _ _ _ _ hts
    have hgt : ¬ i ≤ batchSize := by omega
    exact ⟨t, by rw [timingLoop_succ, if_neg hgt]; rfl, hts⟩
  | succ n ih =>
    intro extra i totalTime t hi hinv hal hidle hfreq hts
    have hle : i ≤ batchSize := by omega
    obtain ⟨t1, h1, hinv1, hal1, hidle1, hfreq1, hts1⟩ :=
      TimeSort_step R W t ((i + 10) % 2 ^ 32) hinv hal hidle
    have hnext : (i + 1) % 2 ^ 32 = i + 1 := Nat.mod_eq_of_lt (by omega)
    obtain ⟨n1, n2, n3, n4, n5⟩ := timingLoop_next t1 i hinv1 hal1 hidle1
    obtain ⟨t', h', hts'⟩ := ih extra (i + 1)
      (if i ≠ 0 then R.add totalTime (R.seconds (elapsed W t.m_device.timestamps)
        t.m_timestampFrequency) else totalTime)
      (if i % 8 = 0 then { t1 with stdout := t1.stdout ++ [Line.dot] } else t1) (by omega)
      n1 n2 n3 (n4.trans (hfreq1.trans hfreq)) (by rw [n5, hts1, hts]; ring)
    refine ⟨t', ?_, by rw [hts']; ring_nf⟩
    have hfuel : extra + (n + 1) + 1 = (extra + n + 1) + 1 := by omega
    rw [hfuel, timingLoop_succ, if_pos hle, h1]
    simp only [bind, Except.bind, hnext]
    rw [h', List.range'_succ, List.foldl_cons, hts, hfreq]

/-- `BatchTiming` for a batch size below 2^32 - 1, given more fuel than iterations: the
loop runs `batchSize + 1` timed sorts (the device ends `2 * (batchSize + 1)` timestamps
later) and accumulates the sample of every iteration except iteration 0. -/
theorem BatchTiming_eq {τ : Type} (R : Real64 τ) (W : World) (s : OneSweep)
    (inputSize batchSize extra : Nat) (hinv : s.Inv)
    (halloc : s.m_numKeys ≠ inputSize ∨ s.Allocated) (hidle : s.m_cmdList = [])
    (hM : batchSize + 1 < 2 ^ 32) :
    ∃ totalTime t', BatchTiming R W (extra + (batchSize + 1) + 1) s inputSize batchSize =
        .ok ((totalTime, R.speed inputSize totalTime batchSize), t') ∧
      totalTime = (List.range' 0 (batchSize + 1)).foldl (fun acc j =>
        if j ≠ 0 then
          R.add acc (R.seconds (elapsed W (s.m_device.timestamps + 2 * j)) s.m_timestampFrequency)
        else acc) R.zero ∧
      t'.m_device.timestamps = s.m_device.timestamps + 2 * (batchSize + 1) := by
  obtain ⟨_, _, _, hcmd, hfreq, hts, _, _⟩ := UpdateSize_config s inputSize
  obtain ⟨t', h, hts'⟩ := timingLoop_total R W batchSize s.m_device.timestamps
    s.m_timestampFrequency hM (batchSize + 1) extra 0 R.zero
    { UpdateSize s inputSize with stdout := (UpdateSize s inputSize).stdout ++ [Line.beginTiming] }
    (by omega)
    ((SameBuffers.print _ _).inv (UpdateSize_inv s inputSize hinv))
    ((SameBuffers.print _ _).allocated (UpdateSize_allocated s inputSize halloc))
    (hcmd.trans hidle) hfreq hts
  refine ⟨_, { t' with stdout := t'.stdout ++ [Line.newline] }, ?_, rfl, ?_⟩
  · unfold BatchTiming
    simp only [bind, Except.bind, h, pure, Except.pure]
  · rw [show ({ t' with stdout := t'.stdout ++ [Line.newline] } : OneSweep).m_device = t'.m_device
      from rfl, hts']
    ring_nf

/-- C5 as amended: for a batch size M below 2^32 - 1, the `totalTime` from which
`BatchTiming(inputSize, M)` computes the reported speed is the sum, in iteration order,
of exactly M `TimeSort` samples, those of iterations 1 to M; the loop runs M + 1
iterations and only the sample of iteration 0 is discarded. -/
theorem BatchTiming_total {τ : Type} (R : Real64 τ) (W : World) (s : OneSweep)
    (inputSize M extra : Nat) (hinv : s.Inv)
    (halloc : s.m_numKeys ≠ inputSize ∨ s.Allocated) (hidle : s.m_cmdList = [])
    (hM : M + 1 < 2 ^ 32) :
    ∃ samples t', samples = (List.range' 1 M).map (fun j =>
        R.seconds (elapsed W (s.m_device.timestamps + 2 * j)) s.m_timestampFrequency) ∧
      samples.length = M ∧
      BatchTiming R W (extra + (M + 1) + 1) s inputSize M =
        .ok ((samples.foldl R.add R.zero, R.speed inputSize (samples.foldl R.add R.zero) M),
          t') := by
  obtain ⟨totalTime, t', h, htot, _⟩ :=
    BatchTiming_eq R W s inputSize M extra hinv halloc hidle hM
  refine ⟨_, t', rfl, by simp, ?_⟩
  have hsum : totalTime = ((List.range' 1 M).map (fun j =>
      R.seconds (elapsed W (s.m_device.timestamps + 2 * j)) s.m_timestampFrequency)).foldl
      R.add R.zero := by
    rw [htot, List.range'_succ, List.foldl_cons, List.foldl_map]
    simp only [ne_eq, not_true_eq_false, if_false]
    apply List.foldl_ext
    intro acc j hj
    have : j ≠ 0 := by
      have := (List.mem_range'_1.mp hj).1
      omega
    simp [this]
  rw [← hsum]
  exact h

theorem BatchTiming_total_witness :
    engine0.Inv ∧ (engine0.m_numKeys ≠ 8 ∨ engine0.Allocated) ∧ engine0.m_cmdList = [] ∧
      3 + 1 < 2 ^ 32 ∧
      ∃ samples t', samples = (List.range' 1 3).map (fun j =>
          sampleLog.seconds (elapsed world0 (engine0.m_device.timestamps + 2 * j))
            engine0.m_timestampFrequency) ∧
        samples.length = 3 ∧
        BatchTiming sampleLog world0 (0 + (3 + 1) + 1) engine0 8 3 =
          .ok ((samples.foldl sampleLog.add sampleLog.zero,
            sampleLog.speed 8 (samples.foldl sampleLog.add sampleLog.zero) 3), t') :=
  ⟨by decide, by decide, by decide, by decide,
    BatchTiming_total sampleLog world0 engine0 8 3 0 (by decide) (by decide) (by decide)
      (by decide)⟩

/-- C5 as stated fails: with batch size 2 the loop accumulates two samples (one entry of
the log each), not 2 - 1 = 1. -/
theorem BatchTiming_two_samples :
    (BatchTiming sampleLog world0 4 engine0 8 2).toOption.map (fun r => r.1.1) = some [5, 5] ∧
      ([5, 5] : List Nat).length ≠ 2 - 1 := by
  obtain ⟨totalTime, t', h, htot, _⟩ :=
    BatchTiming_eq sampleLog world0 engine0 8 2 0 (by decide) (by decide) (by decide) (by decide)
  have hval : totalTime = [5, 5] := by
    rw [htot]
    decide
  subst hval
  rw [show (4 : Nat) = 0 + (2 + 1) + 1 from rfl, h]
  exact ⟨rfl, by decide⟩

/-- With batch size 2^32 - 1 the condition `i <= batchSize` holds for every `uint32_t`
value of `i`, so the loop uses up any amount of fuel. -/
theorem timingLoop_diverges {τ : Type} (R : Real64 τ) (W : World) (fuel : Nat) :
    ∀ (i : Nat) (totalTime : τ) (t : OneSweep), i < 2 ^ 32 →
      t.Inv → t.Allocated → t.m_cmdList = [] →
      timingLoop R W (2 ^ 32 - 1) fuel i totalTime t = .error .fuel := by
  induction fuel with
  | zero =>
    intro i totalTime t _ _ _ _
    rfl
  | succ fuel ih =>
    intro i totalTime t hi hinv hal hidle
    have hle : i ≤ 2 ^ 32 - 1 := by omega
    obtain ⟨t1, h1, hinv1, hal1, hidle1, _, _⟩ :=
      TimeSort_step R W t ((i + 10) % 2 ^ 32) hinv hal hidle
    obtain ⟨n1, n2, n3, _, _⟩ := timingLoop_next t1 i hinv1 hal1 hidle1
    rw [timingLoop_succ, if_pos hle, h1]
    simp only [bind, Except.bind]
    exact ih _ _ _ (Nat.mod_lt _ (by positivity)) n1 n2 n3

/-- C10, the code at the failing input: for `batchSize` = 2^32 - 1 the timing loop of
`BatchTiming` does not terminate: whatever number of iterations it is allowed, it is
still running when they are used up. -/
theorem BatchTiming_diverges {τ : Type} (R : Real64 τ) (W : World) (fuel : Nat) (s : OneSweep)
    (inputSize : Nat) (hinv : s.Inv) (halloc : s.m_numKeys ≠ inputSize ∨ s.Allocated)
    (hidle : s.m_cmdList = []) :
    BatchTiming R W fuel s inputSize (2 ^ 32 - 1) = .error .fuel := by
  obtain ⟨_, _, _, hcmd, _, _, _, _⟩ := UpdateSize_config s inputSize
  have h := timingLoop_diverges R W fuel 0 R.zero
    { UpdateSize s inputSize with stdout := (UpdateSize s inputSize).stdout ++ [Line.beginTiming] }
    (by positivity)
    ((SameBuffers.print _ _).inv (UpdateSize_inv s inputSize hinv))
    ((SameBuffers.print _ _).allocated (UpdateSize_allocated s inputSize halloc))
    (hcmd.trans hidle)
  unfold BatchTiming
  simp only [bind, Except.bind, h]

theorem BatchTiming_diverges_witness :
    engine0.Inv ∧ (engine0.m_numKeys ≠ 8 ∨ engine0.Allocated) ∧ engine0.m_cmdList = [] ∧
      BatchTiming sampleLog world0 1000000 engine0 8 (2 ^ 32 - 1) = .error .fuel :=
  ⟨by decide, by decide, by decide,
    BatchTiming_diverges sampleLog world0 1000000 engine0 8 (by decide) (by decide) (by decide)⟩

/-! ## The constructed engine -/

/-- The constructor establishes the class invariant, for a staging capacity of at least
4 and below 2^30 words, whatever the device has created before; the size-dependent
buffers do not exist yet. -/
theorem OneSweep.new_inv (device : Device) (sortingOrder : GPU_SORTING_ORDER)
    (keyType : GPU_SORTING_KEY_TYPE)
    (partitionSize maxReadback numKeys partitions timestampFrequency : Nat)
    (h4 : 4 ≤ maxReadback) (h30 : maxReadback < 2 ^ 30) :
    (OneSweep.new device sortingOrder keyType partitionSize maxReadback numKeys partitions
      timestampFrequency).Inv ∧
    (OneSweep.new device sortingOrder keyType partitionSize maxReadback numKeys partitions
      timestampFrequency).m_sortBuffer = none ∧
    (OneSweep.new device sortingOrder keyType partitionSize maxReadback numKeys partitions
      timestampFrequency).m_numKeys = numKeys := by
  have hw : maxReadback * 4 % 2 ^ 32 = maxReadback * 4 := Nat.mod_eq_of_lt (by omega)
  refine ⟨⟨?_, ⟨?_, ?_⟩, ?_, h4, h30⟩, rfl, rfl⟩
  · simp [OneSweep.new, Initialize, InitStaticBuffers, OneSweep.fixedBuffers]
  · simp [OneSweep.new, Initialize, InitStaticBuffers, OneSweep.ids, OneSweep.fixedBuffers,
      OneSweep.sizeBuffers, CreateBuffer, List.reduceOption]
    omega
  · simp [OneSweep.new, Initialize, InitStaticBuffers, OneSweep.ids, OneSweep.fixedBuffers,
      OneSweep.sizeBuffers, CreateBuffer, List.reduceOption]
    omega
  · show some (maxReadback * 4 % 2 ^ 32) = some (maxReadback * 4)
    rw [hw]

/-- C1, the code at the failing input: on an engine whose `m_sortBuffer` is still null,
as the constructor leaves it, `TestSort` with the element count N that `m_numKeys`
already holds sorts nothing: `UpdateSize` sees no change of size and allocates no
buffer, and `CreateTestInput` goes through the null `m_sortBuffer`. -/
theorem TestSort_unallocated (W : World) (s : OneSweep) (seed : Nat)
    (shouldReadBack shouldValidate : Bool) (h : s.m_sortBuffer = none) :
    TestSort W s s.m_numKeys seed shouldReadBack shouldValidate = .error .nullHandle := by
  unfold TestSort
  rw [UpdateSize_of_eq]
  simp [CreateTestInput, deref, h, bind, Except.bind]

theorem TestSort_unallocated_witness :
    engine0.m_sortBuffer = none ∧ engine0.m_numKeys = 0 ∧
      TestSort world0 engine0 engine0.m_numKeys 42 false true = .error .nullHandle :=
  ⟨by decide, by decide, TestSort_unallocated world0 engine0 42 false true (by decide)⟩

end GPUSorting
